import Mathlib

/-!
# Reconciliation core of the Che routing controller

A shallow embedding of `pkg/manager/chemanager_controller.go`.

* Go values behind a pointer that a function mutates are returned explicitly.
* Every collaborator of the reconciler (the API client, the gateway, the
  syncer) is a field of `Collaborators`, a function on an arbitrary world
  state; the reconciler threads that state and records each collaborator
  call it makes, with the error the call returned, in a list of `Call`s.
* A Go `error` is `Option GoError`, `none` being `nil`.
* The gateway (`CheGateway`), the syncer (package `sync`) and the backing
  store are not among the sources. Where a statement needs them they are
  modelled from the specification, over an in-memory store like the fake
  client of `gateway_test.go`, and instantiate `Collaborators` as
  `storeCollaborators`.
* The structural comparison of `go-cmp` is modelled on generic values
  (`Value`), typed objects being encoded field by field.
-/

namespace Manager

/-! ## Values of the platform libraries -/

/-- A non-nil Go `error` coming from the API machinery: the status reason
and the message. -/
structure GoError where
  reason : String
  message : String
deriving DecidableEq, Repr

/-- The predicate `errors.IsNotFound`: the status reason of the error is `NotFound`. -/
def IsNotFound (err : GoError) : Bool :=
  err.reason == "NotFound"

/-- A generic Go value, as the structural comparison of `go-cmp` walks it:
a nil pointer, slice or map, a scalar, a struct with its type name and its
fields in declaration order, or the elements of a slice (a map is kept as
its entries in key order). -/
inductive Value where
  | null : Value
  | str : String → Value
  | int : Int → Value
  | struct : String → List (String × Value) → Value
  | list : List Value → Value

/-- One `cmpopts.IgnoreFields(T{}, names...)` option: the struct type and
the names of its fields left out of the comparison. -/
structure IgnoreFields where
  typ : String
  names : List String
deriving DecidableEq, Repr

/-- The type `cmp.Options`, here always a list of `IgnoreFields`. -/
abbrev Options := List IgnoreFields

/-- The type `types.NamespacedName` / `client.ObjectKey`. -/
structure NamespacedName where
  Namespace : String
  Name : String
deriving DecidableEq, Repr

/-- The type `metav1.TypeMeta`. -/
structure TypeMeta where
  Kind : String
  APIVersion : String
deriving DecidableEq, Repr

/-- The type `metav1.OwnerReference`, reduced to the kind and name of the owner. -/
structure OwnerReference where
  Kind : String
  Name : String
deriving DecidableEq, Repr

/-- The type `metav1.ObjectMeta`, reduced to the fields the controller reads or
writes. `DeletionTimestamp` is `none` for the nil pointer. -/
structure ObjectMeta where
  Name : String
  Namespace : String
  Labels : List (String × String)
  Annotations : List (String × String)
  OwnerReferences : List OwnerReference
  DeletionTimestamp : Option String
deriving DecidableEq, Repr

/-- The type `intstr.IntOrString`. -/
inductive IntOrString where
  | int : Int → IntOrString
  | str : String → IntOrString
deriving DecidableEq, Repr

/-- The Go conversion `int32(val)` of an `int`. -/
def toInt32 (val : Int) : Int :=
  (val + 2 ^ 31) % 2 ^ 32 - 2 ^ 31

/-- The function `intstr.FromInt`. -/
def FromInt (val : Int) : IntOrString :=
  .int (toInt32 val)

/-! ## The configuration resource (package `v1alpha1`) -/

/-- Modelled from the spec: the declarations of package `v1alpha1` are not
among the sources. `CheManagerRouting` is a Go string type, so a resource can
carry any string as its routing. -/
abbrev CheManagerRouting := String

/-- Modelled from the spec: the routing constant `SingleHost`. -/
def SingleHost : CheManagerRouting := "singlehost"

/-- Modelled from the spec: the routing constant `MultiHost`. -/
def MultiHost : CheManagerRouting := "multihost"

/-- Modelled from the spec: `GatewayPhase` is a Go string type; a fresh
resource carries the empty phase. -/
abbrev GatewayPhase := String

/-- Modelled from the spec: the phase constant `Initializing`. -/
def GatewayPhaseInitializing : GatewayPhase := "Initializing"

/-- Modelled from the spec: the phase constant `Established`. -/
def GatewayPhaseEstablished : GatewayPhase := "Established"

/-- Modelled from the spec: the phase constant `Inactive`. -/
def GatewayPhaseInactive : GatewayPhase := "Inactive"

/-- The type `v1alpha1.CheManagerSpec`. -/
structure CheManagerSpec where
  Host : String
  Routing : CheManagerRouting
deriving DecidableEq, Repr

/-- The type `v1alpha1.CheManagerStatus`. -/
structure CheManagerStatus where
  GatewayPhase : GatewayPhase
deriving DecidableEq, Repr

/-- The type `v1alpha1.CheManager`. -/
structure CheManager where
  ObjectMeta : ObjectMeta
  Spec : CheManagerSpec
  Status : CheManagerStatus
deriving DecidableEq, Repr

/-! ## Routes (`routev1`) and ingresses (`extensions/v1beta1`) -/

/-- A Go slice: `none` is the nil slice. -/
abbrev Slice (α : Type) := Option (List α)

/-- The type `routev1.RouteTargetReference`. -/
structure RouteTargetReference where
  Kind : String
  Name : String
  Weight : Option Int

/-- The type `routev1.RoutePort`. -/
structure RoutePort where
  TargetPort : IntOrString

/-- The type `routev1.TLSConfig`. -/
structure TLSConfig where
  Termination : String
  Certificate : String
  Key : String
  CACertificate : String
  DestinationCACertificate : String
  InsecureEdgeTerminationPolicy : String

/-- The type `routev1.RouteSpec`. -/
structure RouteSpec where
  Host : String
  Subdomain : String
  Path : String
  To : RouteTargetReference
  AlternateBackends : Slice RouteTargetReference
  Port : Option RoutePort
  TLS : Option TLSConfig
  WildcardPolicy : String

/-- The type `routev1.Route`; the status is whatever the platform wrote there. -/
structure Route where
  TypeMeta : TypeMeta
  ObjectMeta : ObjectMeta
  Spec : RouteSpec
  Status : Value

/-- The type `corev1.TypedLocalObjectReference`. -/
structure TypedLocalObjectReference where
  APIGroup : Option String
  Kind : String
  Name : String

/-- The type `v1beta1.IngressBackend`. -/
structure IngressBackend where
  ServiceName : String
  ServicePort : IntOrString
  Resource : Option TypedLocalObjectReference

/-- The type `v1beta1.HTTPIngressPath`. -/
structure HTTPIngressPath where
  Path : String
  PathType : Option String
  Backend : IngressBackend

/-- The type `v1beta1.HTTPIngressRuleValue`. -/
structure HTTPIngressRuleValue where
  Paths : Slice HTTPIngressPath

/-- The type `v1beta1.IngressRuleValue`, the struct embedded in `IngressRule`. -/
structure IngressRuleValue where
  HTTP : Option HTTPIngressRuleValue

/-- The type `v1beta1.IngressRule`. -/
structure IngressRule where
  Host : String
  IngressRuleValue : IngressRuleValue

/-- The type `v1beta1.IngressTLS`. -/
structure IngressTLS where
  Hosts : Slice String
  SecretName : String

/-- The type `v1beta1.IngressSpec`. -/
structure IngressSpec where
  IngressClassName : Option String
  Backend : Option IngressBackend
  TLS : Slice IngressTLS
  Rules : Slice IngressRule

/-- The type `v1beta1.Ingress`; the status is whatever the platform wrote there. -/
structure Ingress where
  TypeMeta : TypeMeta
  ObjectMeta : ObjectMeta
  Spec : IngressSpec
  Status : Value

/-- The six kinds of object that make up the gateway bundle. -/
inductive BundleKind where
  | ServiceAccount
  | Role
  | RoleBinding
  | ConfigMap
  | Deployment
  | Service
deriving DecidableEq, Repr

/-- An object of the gateway bundle: its kind, its metadata, the fields the
controller builds (top-level field name and value) and the `Status` field
when the kind has one. -/
structure BundleObject where
  kind : BundleKind
  TypeMeta : TypeMeta
  ObjectMeta : ObjectMeta
  fields : List (String × Value)
  Status : Option Value

/-- A `runtime.Object` handed to the syncer or kept in the backing store. -/
inductive Object where
  | route : Route → Object
  | ingress : Ingress → Object
  | bundle : BundleObject → Object
  | cheManager : CheManager → Object

/-! ## Package-level values the controller reads -/

/-- The parts of the controller's surroundings that are not among the
sources and that the embedded functions only read: the platform flag
`infrastructure.Current.Type == infrastructure.OpenShift`, the constant
`GatewayPort`, the helpers `GetGatewayServiceName` and
`defaults.GetLabelsForComponent`, and what the builders of the gateway
bundle put into each object besides its identity (labels and fields). -/
structure Externals where
  OpenShift : Bool
  GatewayPort : Int
  GetGatewayServiceName : CheManager → String
  GetLabelsForComponent : CheManager → String → List (String × String)
  GatewayObjectLabels : CheManager → BundleKind → List (String × String)
  GatewayObjectFields : CheManager → BundleKind → List (String × Value)

/-- The package variable `routeDiffOpts`. -/
def routeDiffOpts : Options :=
  [ ⟨"Route", ["TypeMeta", "ObjectMeta", "Status"]⟩,
    ⟨"RouteSpec", ["WildcardPolicy"]⟩ ]

/-- The package variable `ingressDiffOpts`. -/
def ingressDiffOpts : Options :=
  [ ⟨"Ingress", ["TypeMeta", "ObjectMeta", "Status"]⟩ ]

/-- The function `getRouteSpec`. Fields the composite literal leaves out
take their zero value. -/
def getRouteSpec (x : Externals) (manager : CheManager) : Route :=
  { TypeMeta := ⟨"", ""⟩
    ObjectMeta :=
      { Name := manager.ObjectMeta.Name
        Namespace := manager.ObjectMeta.Namespace
        Labels := x.GetLabelsForComponent manager "external-access"
        Annotations := []
        OwnerReferences := []
        DeletionTimestamp := none }
    Spec :=
      { Host := manager.Spec.Host
        Subdomain := ""
        Path := ""
        To := { Kind := "Service", Name := x.GetGatewayServiceName manager, Weight := none }
        AlternateBackends := none
        Port := some { TargetPort := FromInt x.GatewayPort }
        TLS := some
          { Termination := "edge"
            Certificate := ""
            Key := ""
            CACertificate := ""
            DestinationCACertificate := ""
            InsecureEdgeTerminationPolicy := "Redirect" }
        WildcardPolicy := "" }
    Status := .struct "RouteStatus" [("Ingress", .null)] }

/-- The function `getIngressSpec`. Fields the composite literal leaves out
take their zero value. -/
def getIngressSpec (x : Externals) (manager : CheManager) : Ingress :=
  let pathType := "ImplementationSpecific"
  { TypeMeta := ⟨"", ""⟩
    ObjectMeta :=
      { Name := manager.ObjectMeta.Name
        Namespace := manager.ObjectMeta.Namespace
        Labels := x.GetLabelsForComponent manager "external-access"
        Annotations :=
          [ ("kubernetes.io/ingress.class", "nginx"),
            ("nginx.ingress.kubernetes.io/proxy-read-timeout", "3600"),
            ("nginx.ingress.kubernetes.io/proxy-connect-timeout", "3600") ]
        OwnerReferences := []
        DeletionTimestamp := none }
    Spec :=
      { IngressClassName := none
        Backend := none
        TLS := none
        Rules := some
          [ { Host := manager.Spec.Host
              IngressRuleValue :=
                { HTTP := some
                    { Paths := some
                        [ { Path := "/"
                            PathType := some pathType
                            Backend :=
                              { ServiceName := x.GetGatewayServiceName manager
                                ServicePort := FromInt x.GatewayPort
                                Resource := none } } ] } } } ] }
    Status := .struct "IngressStatus" [("LoadBalancer", .struct "LoadBalancerStatus" [("Ingress", .null)])] }

/-! ## Collaborators and the record of their calls -/

/-- The type `ctrl.Result`, reduced to the requeue flag. -/
structure Result where
  Requeue : Bool
deriving DecidableEq, Repr

/-- An operation of a collaborator, with its arguments. -/
inductive Op where
  | clientGet : NamespacedName → Op
  | gatewaySync : CheManager → Op
  | gatewayDelete : CheManager → Op
  | syncerSync : CheManager → Object → Options → Op
  | syncerDelete : Object → Op
  | statusUpdate : CheManager → Op

/-- One call of a collaborator and the error it returned. -/
structure Call where
  op : Op
  err : Option GoError

/-- The collaborators of `CheReconciler`, as functions on a world state
`σ`: `r.client.Get`, `r.gateway.Sync`, `r.gateway.Delete`, `r.syncer.Sync`,
`r.syncer.Delete` and `r.client.Status().Update`. They receive the resource
by value: no collaborator changes the reconciler's in-memory copy. -/
structure Collaborators (σ : Type) where
  clientGet : NamespacedName → σ → Except GoError CheManager × σ
  gatewaySync : CheManager → σ → (Bool × Option GoError) × σ
  gatewayDelete : CheManager → σ → Option GoError × σ
  syncerSync : CheManager → Object → Options → σ → (Bool × Option GoError) × σ
  syncerDelete : Object → σ → Option GoError × σ
  statusUpdate : CheManager → σ → Option GoError × σ

/-- What a function of the reconciler leaves behind: its return value, the
world state after it and the collaborator calls it made, in order. -/
structure Outcome (σ α : Type) where
  val : α
  state : σ
  calls : List Call

/-- The return values of `updateStatus` together with the resource it
mutated through the pointer. -/
structure StatusUpdate where
  result : Result
  err : Option GoError
  manager : CheManager

/-- The assignment `manager.Status.GatewayPhase = phase`. -/
def CheManager.setGatewayPhase (manager : CheManager) (phase : GatewayPhase) : CheManager :=
  { manager with Status := { manager.Status with GatewayPhase := phase } }

/-- The method `CheReconciler.finalize`. -/
def finalize (_router : CheManager) : Option GoError :=
  none

/-- The method `CheReconciler.updateStatus`. -/
def updateStatus {σ : Type} (c : Collaborators σ) (manager : CheManager) (changed : Bool)
    (s : σ) : Outcome σ StatusUpdate :=
  let currentPhase := manager.Status.GatewayPhase
  let manager :=
    if manager.Spec.Routing = MultiHost then
      manager.setGatewayPhase GatewayPhaseInactive
    else if changed then
      manager.setGatewayPhase GatewayPhaseInitializing
    else
      manager.setGatewayPhase GatewayPhaseEstablished
  if currentPhase ≠ manager.Status.GatewayPhase then
    let r := c.statusUpdate manager s
    { val := { result := { Requeue := true }, err := r.1, manager := manager }
      state := r.2
      calls := [⟨.statusUpdate manager, r.1⟩] }
  else
    { val :=
        { result := { Requeue := currentPhase == GatewayPhaseInitializing }
          err := none
          manager := manager }
      state := s
      calls := [] }

/-- The method `CheReconciler.reconcileGateway`. -/
def reconcileGateway {σ : Type} (c : Collaborators σ) (manager : CheManager) (s : σ) :
    Outcome σ (Bool × Option GoError) :=
  if manager.Spec.Routing = SingleHost then
    let r := c.gatewaySync manager s
    { val := r.1, state := r.2, calls := [⟨.gatewaySync manager, r.1.2⟩] }
  else
    let r := c.gatewayDelete manager s
    { val := (true, r.1), state := r.2, calls := [⟨.gatewayDelete manager, r.1⟩] }

/-- The method `CheReconciler.reconcileRoute`. -/
def reconcileRoute {σ : Type} (x : Externals) (c : Collaborators σ) (manager : CheManager)
    (s : σ) : Outcome σ (Bool × Option GoError) :=
  let route := getRouteSpec x manager
  if manager.Spec.Routing = SingleHost then
    let r := c.syncerSync manager (.route route) routeDiffOpts s
    { val := r.1, state := r.2, calls := [⟨.syncerSync manager (.route route) routeDiffOpts, r.1.2⟩] }
  else
    let r := c.syncerDelete (.route route) s
    { val := (true, r.1), state := r.2, calls := [⟨.syncerDelete (.route route), r.1⟩] }

/-- The method `CheReconciler.reconcileIngress`. -/
def reconcileIngress {σ : Type} (x : Externals) (c : Collaborators σ) (manager : CheManager)
    (s : σ) : Outcome σ (Bool × Option GoError) :=
  let ingress := getIngressSpec x manager
  if manager.Spec.Routing = SingleHost then
    let r := c.syncerSync manager (.ingress ingress) ingressDiffOpts s
    { val := r.1, state := r.2,
      calls := [⟨.syncerSync manager (.ingress ingress) ingressDiffOpts, r.1.2⟩] }
  else
    let r := c.syncerDelete (.ingress ingress) s
    { val := (true, r.1), state := r.2, calls := [⟨.syncerDelete (.ingress ingress), r.1⟩] }

/-- The entry-point step of `Reconcile`: the branch on
`infrastructure.Current.Type == infrastructure.OpenShift`. -/
def reconcileEntryPoint {σ : Type} (x : Externals) (c : Collaborators σ)
    (manager : CheManager) (s : σ) : Outcome σ (Bool × Option GoError) :=
  if x.OpenShift then reconcileRoute x c manager s else reconcileIngress x c manager s

/-- The method `CheReconciler.Reconcile`. -/
def Reconcile {σ : Type} (x : Externals) (c : Collaborators σ) (req : NamespacedName)
    (s : σ) : Outcome σ (Result × Option GoError) :=
  match c.clientGet req s with
  | (.error err, s1) =>
    if IsNotFound err then
      { val := ({ Requeue := false }, none), state := s1, calls := [⟨.clientGet req, some err⟩] }
    else
      { val := ({ Requeue := false }, some err), state := s1,
        calls := [⟨.clientGet req, some err⟩] }
  | (.ok current, s1) =>
    if current.ObjectMeta.DeletionTimestamp.isSome then
      { val := ({ Requeue := false }, finalize current), state := s1,
        calls := [⟨.clientGet req, none⟩] }
    else
      let anyChanged := false
      let g := reconcileGateway c current s1
      match g.val.2 with
      | some err =>
        { val := ({ Requeue := false }, some err), state := g.state,
          calls := ⟨.clientGet req, none⟩ :: g.calls }
      | none =>
        let anyChanged := anyChanged || g.val.1
        let e := reconcileEntryPoint x c current g.state
        match e.val.2 with
        | some err =>
          { val := ({ Requeue := false }, some err), state := e.state,
            calls := ⟨.clientGet req, none⟩ :: (g.calls ++ e.calls) }
        | none =>
          let anyChanged := anyChanged || e.val.1
          let u := updateStatus c current anyChanged e.state
          { val := (u.val.result, u.val.err), state := u.state,
            calls := ⟨.clientGet req, none⟩ :: (g.calls ++ e.calls ++ u.calls) }

/-- Whether a recorded call is the status write `client.Status().Update`. -/
def Call.isStatusUpdate (call : Call) : Bool :=
  match call.op with
  | .statusUpdate _ => true
  | _ => false

/-- Whether a recorded call is a `Sync`, of the gateway or of the syncer. -/
def Call.isSync (call : Call) : Bool :=
  match call.op with
  | .gatewaySync _ => true
  | .syncerSync _ _ _ => true
  | _ => false

/-- Whether a recorded call is a `Delete`, of the gateway or of the syncer. -/
def Call.isDelete (call : Call) : Bool :=
  match call.op with
  | .gatewayDelete _ => true
  | .syncerDelete _ => true
  | _ => false

/-- The error with which a recorded call failed, if it did: any error a
call returned, except that not-found from loading the resource is not a
failure. -/
def Call.failure (call : Call) : Option GoError :=
  match call.op with
  | .clientGet _ => call.err.filter fun err => !IsNotFound err
  | _ => call.err

/-- The rounds of `n` invocations of `Reconcile` in a row for one request,
oldest first: the state a round starts in and its outcome, each round
starting in the state the previous one left. -/
def ReconcileN {σ : Type} (x : Externals) (c : Collaborators σ) (req : NamespacedName) :
    Nat → σ → List (σ × Outcome σ (Result × Option GoError))
  | 0, _ => []
  | n + 1, s =>
    let o := Reconcile x c req s
    (s, o) :: ReconcileN x c req n o.state

/-- The desired entry-point object of the platform: the route on OpenShift,
the ingress elsewhere. -/
def entryPointObject (x : Externals) (manager : CheManager) : Object :=
  if x.OpenShift then .route (getRouteSpec x manager) else .ingress (getIngressSpec x manager)

/-- The comparison options of the platform's entry point. -/
def entryPointDiffOpts (x : Externals) : Options :=
  if x.OpenShift then routeDiffOpts else ingressDiffOpts

/-- A resource named `che` in namespace `default` with host
`over.the.rainbow`, as in the tests. -/
def cheResource (routing : CheManagerRouting) (phase : GatewayPhase) : CheManager :=
  { ObjectMeta :=
      { Name := "che", Namespace := "default", Labels := [], Annotations := [],
        OwnerReferences := [], DeletionTimestamp := none }
    Spec := { Host := "over.the.rainbow", Routing := routing }
    Status := { GatewayPhase := phase } }

/-- Externals as on a plain Kubernetes cluster: the gateway service carries
the resource's name. -/
def kubernetesExternals : Externals :=
  { OpenShift := false
    GatewayPort := 8080
    GetGatewayServiceName := fun manager => manager.ObjectMeta.Name
    GetLabelsForComponent := fun manager component =>
      [("app.kubernetes.io/name", manager.ObjectMeta.Name),
       ("app.kubernetes.io/component", component)]
    GatewayObjectLabels := fun manager _ =>
      [("app.kubernetes.io/name", manager.ObjectMeta.Name),
       ("app.kubernetes.io/component", "gateway")]
    GatewayObjectFields := fun manager kind =>
      match kind with
      | .ConfigMap => [("Data", .list [.str manager.Spec.Host])]
      | .Deployment => [("Spec", .struct "DeploymentSpec" [("Replicas", .int 1)])]
      | .Service =>
        [("Spec", .struct "ServiceSpec" [("Ports", .list [.int 8080])])]
      | _ => [] }

/-- Collaborators over a world that holds the resource `che` with the given
routing and nothing else, the world state being the phase stored for it:
loading returns the resource with the stored phase, the status write stores
the phase it is given, every sync and delete succeeds, a sync reporting the
given `changed`. -/
def cheWorld (routing : CheManagerRouting) (changed : Bool) : Collaborators GatewayPhase :=
  { clientGet := fun _ s => (.ok (cheResource routing s), s)
    gatewaySync := fun _ s => ((changed, none), s)
    gatewayDelete := fun _ s => (none, s)
    syncerSync := fun _ _ _ s => ((changed, none), s)
    syncerDelete := fun _ s => (none, s)
    statusUpdate := fun manager _ => (none, manager.Status.GatewayPhase) }

/-- Collaborators over a world that holds the resource `che` with
`SingleHost` routing, the world state being the phase stored for it, in
which each collaborator returns the error given for it, if any: the load,
the gateway, the syncer and the status write. -/
def faultyWorld (getErr gatewayErr syncerErr statusErr : Option GoError) :
    Collaborators GatewayPhase :=
  { clientGet := fun _ s =>
      match getErr with
      | some err => (.error err, s)
      | none => (.ok (cheResource SingleHost s), s)
    gatewaySync := fun _ s => ((false, gatewayErr), s)
    gatewayDelete := fun _ s => (gatewayErr, s)
    syncerSync := fun _ _ _ s => ((false, syncerErr), s)
    syncerDelete := fun _ s => (syncerErr, s)
    statusUpdate := fun manager s =>
      match statusErr with
      | some err => (some err, s)
      | none => (none, manager.Status.GatewayPhase) }

/-- Collaborators over a world that holds the resource `che` with the given
routing and a deletion marker, the world state being the phase stored for
it; every call succeeds. -/
def finalizingWorld (routing : CheManagerRouting) : Collaborators GatewayPhase :=
  { clientGet := fun _ s =>
      (.ok { cheResource routing s with
        ObjectMeta := { (cheResource routing s).ObjectMeta with
          DeletionTimestamp := some "2020-11-04T00:00:00Z" } }, s)
    gatewaySync := fun _ s => ((false, none), s)
    gatewayDelete := fun _ s => (none, s)
    syncerSync := fun _ _ _ s => ((false, none), s)
    syncerDelete := fun _ s => (none, s)
    statusUpdate := fun manager _ => (none, manager.Status.GatewayPhase) }

/-! ## Structural comparison (`go-cmp`) -/

/-- Whether the options leave the field `field` of the struct type `typ` out
of the comparison. -/
def ignored (opts : Options) (typ field : String) : Bool :=
  opts.any fun o => o.typ == typ && o.names.contains field

mutual
/-- The comparison `cmp.Equal(a, b, opts)` on generic values: nil equals
only nil, scalars are compared by value, structs of one type field by field
except for the ignored fields, slices element by element. -/
def cmpEqual (opts : Options) : Value → Value → Bool
  | .null, .null => true
  | .str a, .str b => a == b
  | .int a, .int b => a == b
  | .struct ta fa, .struct tb fb => ta == tb && cmpFields opts ta fa fb
  | .list xs, .list ys => cmpList opts xs ys
  | _, _ => false
/-- The fields of two structs of type `typ`, compared in declaration order. -/
def cmpFields (opts : Options) (typ : String) :
    List (String × Value) → List (String × Value) → Bool
  | [], [] => true
  | (na, va) :: ra, (nb, vb) :: rb =>
    na == nb && (ignored opts typ na || cmpEqual opts va vb) && cmpFields opts typ ra rb
  | _, _ => false
/-- The elements of two slices, compared in order. -/
def cmpList (opts : Options) : List Value → List Value → Bool
  | [], [] => true
  | a :: ra, b :: rb => cmpEqual opts a b && cmpList opts ra rb
  | _, _ => false
end

/-! ## Typed objects as generic values -/

/-- A pointer: nil, or the value it points to. -/
def ptrValue {α : Type} (f : α → Value) : Option α → Value
  | none => .null
  | some a => f a

/-- A slice: nil, or its elements. -/
def sliceValue {α : Type} (f : α → Value) : Slice α → Value
  | none => .null
  | some xs => .list (xs.map f)

/-- A `map[string]string`, as its entries. -/
def mapValue (m : List (String × String)) : Value :=
  .list (m.map fun e => .struct "entry" [("key", .str e.1), ("value", .str e.2)])

def IntOrString.toValue : IntOrString → Value
  | .int n => .struct "IntOrString" [("Type", .int 0), ("IntVal", .int n), ("StrVal", .str "")]
  | .str v => .struct "IntOrString" [("Type", .int 1), ("IntVal", .int 0), ("StrVal", .str v)]

def TypeMeta.toValue (t : TypeMeta) : Value :=
  .struct "TypeMeta" [("Kind", .str t.Kind), ("APIVersion", .str t.APIVersion)]

def OwnerReference.toValue (o : OwnerReference) : Value :=
  .struct "OwnerReference" [("Kind", .str o.Kind), ("Name", .str o.Name)]

def ObjectMeta.toValue (m : ObjectMeta) : Value :=
  .struct "ObjectMeta"
    [ ("Name", .str m.Name),
      ("Namespace", .str m.Namespace),
      ("DeletionTimestamp", ptrValue .str m.DeletionTimestamp),
      ("Labels", mapValue m.Labels),
      ("Annotations", mapValue m.Annotations),
      ("OwnerReferences", .list (m.OwnerReferences.map OwnerReference.toValue)) ]

def RouteTargetReference.toValue (r : RouteTargetReference) : Value :=
  .struct "RouteTargetReference"
    [("Kind", .str r.Kind), ("Name", .str r.Name), ("Weight", ptrValue .int r.Weight)]

def RoutePort.toValue (r : RoutePort) : Value :=
  .struct "RoutePort" [("TargetPort", r.TargetPort.toValue)]

def TLSConfig.toValue (t : TLSConfig) : Value :=
  .struct "TLSConfig"
    [ ("Termination", .str t.Termination),
      ("Certificate", .str t.Certificate),
      ("Key", .str t.Key),
      ("CACertificate", .str t.CACertificate),
      ("DestinationCACertificate", .str t.DestinationCACertificate),
      ("InsecureEdgeTerminationPolicy", .str t.InsecureEdgeTerminationPolicy) ]

def RouteSpec.toValue (r : RouteSpec) : Value :=
  .struct "RouteSpec"
    [ ("Host", .str r.Host),
      ("Subdomain", .str r.Subdomain),
      ("Path", .str r.Path),
      ("To", r.To.toValue),
      ("AlternateBackends", sliceValue RouteTargetReference.toValue r.AlternateBackends),
      ("Port", ptrValue RoutePort.toValue r.Port),
      ("TLS", ptrValue TLSConfig.toValue r.TLS),
      ("WildcardPolicy", .str r.WildcardPolicy) ]

def Route.toValue (r : Route) : Value :=
  .struct "Route"
    [ ("TypeMeta", r.TypeMeta.toValue),
      ("ObjectMeta", r.ObjectMeta.toValue),
      ("Spec", r.Spec.toValue),
      ("Status", r.Status) ]

def TypedLocalObjectReference.toValue (r : TypedLocalObjectReference) : Value :=
  .struct "TypedLocalObjectReference"
    [("APIGroup", ptrValue .str r.APIGroup), ("Kind", .str r.Kind), ("Name", .str r.Name)]

def IngressBackend.toValue (b : IngressBackend) : Value :=
  .struct "IngressBackend"
    [ ("ServiceName", .str b.ServiceName),
      ("ServicePort", b.ServicePort.toValue),
      ("Resource", ptrValue TypedLocalObjectReference.toValue b.Resource) ]

def HTTPIngressPath.toValue (h : HTTPIngressPath) : Value :=
  .struct "HTTPIngressPath"
    [ ("Path", .str h.Path),
      ("PathType", ptrValue .str h.PathType),
      ("Backend", h.Backend.toValue) ]

def HTTPIngressRuleValue.toValue (h : HTTPIngressRuleValue) : Value :=
  .struct "HTTPIngressRuleValue" [("Paths", sliceValue HTTPIngressPath.toValue h.Paths)]

def IngressRuleValue.toValue (r : IngressRuleValue) : Value :=
  .struct "IngressRuleValue" [("HTTP", ptrValue HTTPIngressRuleValue.toValue r.HTTP)]

def IngressRule.toValue (r : IngressRule) : Value :=
  .struct "IngressRule"
    [("Host", .str r.Host), ("IngressRuleValue", r.IngressRuleValue.toValue)]

def IngressTLS.toValue (t : IngressTLS) : Value :=
  .struct "IngressTLS" [("Hosts", sliceValue .str t.Hosts), ("SecretName", .str t.SecretName)]

def IngressSpec.toValue (i : IngressSpec) : Value :=
  .struct "IngressSpec"
    [ ("IngressClassName", ptrValue .str i.IngressClassName),
      ("Backend", ptrValue IngressBackend.toValue i.Backend),
      ("TLS", sliceValue IngressTLS.toValue i.TLS),
      ("Rules", sliceValue IngressRule.toValue i.Rules) ]

def Ingress.toValue (i : Ingress) : Value :=
  .struct "Ingress"
    [ ("TypeMeta", i.TypeMeta.toValue),
      ("ObjectMeta", i.ObjectMeta.toValue),
      ("Spec", i.Spec.toValue),
      ("Status", i.Status) ]

/-- The Go type name of a kind of the gateway bundle. -/
def BundleKind.typeName : BundleKind → String
  | .ServiceAccount => "ServiceAccount"
  | .Role => "Role"
  | .RoleBinding => "RoleBinding"
  | .ConfigMap => "ConfigMap"
  | .Deployment => "Deployment"
  | .Service => "Service"

def BundleObject.toValue (b : BundleObject) : Value :=
  .struct b.kind.typeName
    ([("TypeMeta", b.TypeMeta.toValue), ("ObjectMeta", b.ObjectMeta.toValue)] ++ b.fields ++
      match b.Status with
      | none => []
      | some v => [("Status", v)])

def CheManager.toValue (m : CheManager) : Value :=
  .struct "CheManager"
    [ ("ObjectMeta", m.ObjectMeta.toValue),
      ("Spec", .struct "CheManagerSpec" [("Host", .str m.Spec.Host), ("Routing", .str m.Spec.Routing)]),
      ("Status", .struct "CheManagerStatus" [("GatewayPhase", .str m.Status.GatewayPhase)]) ]

def Object.toValue : Object → Value
  | .route r => r.toValue
  | .ingress i => i.toValue
  | .bundle b => b.toValue
  | .cheManager m => m.toValue

/-! ## The backing store -/

/-- The kind of an object of the backing store. -/
inductive Kind where
  | CheManager : Kind
  | Route : Kind
  | Ingress : Kind
  | Bundle : BundleKind → Kind
deriving DecidableEq, Repr

def Object.kind : Object → Kind
  | .route _ => .Route
  | .ingress _ => .Ingress
  | .bundle b => .Bundle b.kind
  | .cheManager _ => .CheManager

/-- The metadata of an object. -/
def Object.objectMeta : Object → ObjectMeta
  | .route r => r.ObjectMeta
  | .ingress i => i.ObjectMeta
  | .bundle b => b.ObjectMeta
  | .cheManager m => m.ObjectMeta

/-- The identity of an object within its kind. -/
def Object.key (o : Object) : NamespacedName :=
  ⟨o.objectMeta.Namespace, o.objectMeta.Name⟩

/-- Whether the object is the one of the given kind and identity. -/
def Object.is (kind : Kind) (key : NamespacedName) (o : Object) : Bool :=
  decide (o.kind = kind) && decide (o.key = key)

/-- The mutating requests of the backing store. -/
inductive Verb where
  | Create
  | Update
  | Delete
  | UpdateStatus
deriving DecidableEq, Repr

/-- One mutating request the backing store received. -/
structure Write where
  verb : Verb
  kind : Kind
  key : NamespacedName
deriving DecidableEq, Repr

/-- Modelled from the spec: the backing store of section 6, kept in memory as
by the fake client of the tests: the objects it holds and, oldest first, the
mutating requests it has received. -/
structure Store where
  objects : List Object
  writes : List Write

/-- The object of the given kind and identity, if the store holds one. -/
def Store.find? (st : Store) (kind : Kind) (key : NamespacedName) : Option Object :=
  st.objects.find? (Object.is kind key)

/-- The store after it logged one more mutating request. -/
def Store.logged (st : Store) (w : Write) : Store :=
  { st with writes := st.writes ++ [w] }

/-- Modelled from the spec: `Get(identity) -> (object, NotFoundError|other)`. -/
def Store.Get (st : Store) (kind : Kind) (key : NamespacedName) : Except GoError Object :=
  match st.find? kind key with
  | some o => .ok o
  | none => .error ⟨"NotFound", "not found"⟩

/-- Modelled from the spec: `Create(object) -> error`; an object that exists
already is not created again. -/
def Store.Create (st : Store) (obj : Object) : Option GoError × Store :=
  let st := st.logged ⟨.Create, obj.kind, obj.key⟩
  match st.find? obj.kind obj.key with
  | some _ => (some ⟨"AlreadyExists", "already exists"⟩, st)
  | none => (none, { st with objects := st.objects ++ [obj] })

/-- Modelled from the spec: `Update(object) -> error`; the object replaces
the stored one of its kind and identity. -/
def Store.Update (st : Store) (obj : Object) : Option GoError × Store :=
  let st := st.logged ⟨.Update, obj.kind, obj.key⟩
  match st.find? obj.kind obj.key with
  | none => (some ⟨"NotFound", "not found"⟩, st)
  | some _ =>
    (none, { st with
      objects := st.objects.map (fun o => if o.is obj.kind obj.key then obj else o) })

/-- Modelled from the spec: `Delete(identity) -> NotFoundError|other`. -/
def Store.Delete (st : Store) (kind : Kind) (key : NamespacedName) : Option GoError × Store :=
  let st := st.logged ⟨.Delete, kind, key⟩
  match st.find? kind key with
  | none => (some ⟨"NotFound", "not found"⟩, st)
  | some _ => (none, { st with objects := st.objects.filter (fun o => !o.is kind key) })

/-- Modelled from the spec: `UpdateStatus(resource) -> error`, the write
path of the status: the stored resource takes the status of the given one
and keeps the rest. -/
def Store.UpdateStatus (st : Store) (manager : CheManager) : Option GoError × Store :=
  let key : NamespacedName := ⟨manager.ObjectMeta.Namespace, manager.ObjectMeta.Name⟩
  let st := st.logged ⟨.UpdateStatus, .CheManager, key⟩
  match st.find? .CheManager key with
  | none => (some ⟨"NotFound", "not found"⟩, st)
  | some _ =>
    (none, { st with
      objects := st.objects.map (fun o =>
        match o with
        | .cheManager m =>
          if (Object.cheManager m).is .CheManager key then
            .cheManager { m with Status := manager.Status }
          else o
        | _ => o) })

/-- The mutating requests the store received between two of its states. -/
def Store.writesSince (before after : Store) : List Write :=
  after.writes.drop before.writes.length

/-! ## DiffSyncer (package `sync`) -/

/-- Modelled from the spec: the ownership back-reference to `owner` that the
syncer sets on an object it creates (section 4.1). -/
def Object.withOwner (owner : CheManager) (o : Object) : Object :=
  let ref : OwnerReference := ⟨"CheManager", owner.ObjectMeta.Name⟩
  match o with
  | .route r =>
    .route { r with ObjectMeta := { r.ObjectMeta with OwnerReferences := [ref] } }
  | .ingress i =>
    .ingress { i with ObjectMeta := { i.ObjectMeta with OwnerReferences := [ref] } }
  | .bundle b =>
    .bundle { b with ObjectMeta := { b.ObjectMeta with OwnerReferences := [ref] } }
  | .cheManager m =>
    .cheManager { m with ObjectMeta := { m.ObjectMeta with OwnerReferences := [ref] } }

/-- Modelled from the spec: the object of an update, the desired spec fields
merged onto the current object's identity, metadata and status
(section 4.1). -/
def Object.mergeOnto (current desired : Object) : Object :=
  match current, desired with
  | .route c, .route d => .route { c with Spec := d.Spec }
  | .ingress c, .ingress d => .ingress { c with Spec := d.Spec }
  | .bundle c, .bundle d => .bundle { c with fields := d.fields }
  | .cheManager c, .cheManager d => .cheManager { c with Spec := d.Spec }
  | _, _ => desired

/-- Modelled from the spec: `Syncer.Sync` of package `sync`, which is not
among the sources (section 4.1): look the desired object up by identity;
when absent create it with the ownership back-reference and report a
change; when present compare under the options, report no change and write
nothing when they show no difference, else update and report a change. An
error of the store other than not-found is returned as it is. -/
def Syncer.Sync (owner : CheManager) (desired : Object) (opts : Options) (st : Store) :
    (Bool × Option GoError) × Store :=
  match st.Get desired.kind desired.key with
  | .error err =>
    if IsNotFound err then
      let r := st.Create (desired.withOwner owner)
      match r.1 with
      | some e => ((false, some e), r.2)
      | none => ((true, none), r.2)
    else ((false, some err), st)
  | .ok current =>
    if cmpEqual opts current.toValue desired.toValue then ((false, none), st)
    else
      let r := st.Update (current.mergeOnto desired)
      match r.1 with
      | some e => ((false, some e), r.2)
      | none => ((true, none), r.2)

/-- Modelled from the spec: `Syncer.Delete` of package `sync` (section 4.1):
delete by identity; not-found is not an error. -/
def Syncer.Delete (obj : Object) (st : Store) : Option GoError × Store :=
  let r := st.Delete obj.kind obj.key
  match r.1 with
  | some e => if IsNotFound e then (none, r.2) else (some e, r.2)
  | none => (none, r.2)

/-! ## GatewaySyncEngine (`CheGateway`) -/

/-- Modelled from the spec: the bundle in its fixed order: account, role,
role binding, config, deployment, service (section 4.2). -/
def bundleKinds : List BundleKind :=
  [.ServiceAccount, .Role, .RoleBinding, .ConfigMap, .Deployment, .Service]

/-- Modelled from the spec: the comparison options of a bundle kind, which
leave out the metadata and the status (section 4.1). -/
def gatewayDiffOpts (kind : BundleKind) : Options :=
  [⟨kind.typeName, ["TypeMeta", "ObjectMeta", "Status"]⟩]

/-- Modelled from the spec: the desired object of a bundle kind; it carries
the resource's name and namespace (section 3). -/
def getGatewayObject (x : Externals) (manager : CheManager) (kind : BundleKind) : BundleObject :=
  { kind := kind
    TypeMeta := ⟨"", ""⟩
    ObjectMeta :=
      { Name := manager.ObjectMeta.Name
        Namespace := manager.ObjectMeta.Namespace
        Labels := x.GatewayObjectLabels manager kind
        Annotations := []
        OwnerReferences := []
        DeletionTimestamp := none }
    fields := x.GatewayObjectFields manager kind
    Status := none }

/-- Modelled from the spec: the loop of `CheGateway.Sync`, the bundle
synchronized kind by kind; `changed` is the or of the changes so far. The
first error ends it. -/
def CheGateway.syncAll (x : Externals) (manager : CheManager) :
    List BundleKind → Bool → Store → (Bool × Option GoError) × Store
  | [], changed, st => ((changed, none), st)
  | kind :: rest, changed, st =>
    let r := Syncer.Sync manager (.bundle (getGatewayObject x manager kind))
      (gatewayDiffOpts kind) st
    match r.1.2 with
    | some err => ((false, some err), r.2)
    | none => CheGateway.syncAll x manager rest (changed || r.1.1) r.2

/-- Modelled from the spec: `CheGateway.Sync`, which is not among the
sources (section 4.2): `Syncer.Sync` on each desired object of the bundle
in the fixed order, `changed` being the or across the bundle. -/
def CheGateway.Sync (x : Externals) (manager : CheManager) (st : Store) :
    (Bool × Option GoError) × Store :=
  CheGateway.syncAll x manager bundleKinds false st

/-- Modelled from the spec: the loop of `CheGateway.Delete`, the bundle
deleted kind by kind. The first error ends it. -/
def CheGateway.deleteAll (x : Externals) (manager : CheManager) :
    List BundleKind → Store → Option GoError × Store
  | [], st => (none, st)
  | kind :: rest, st =>
    let r := Syncer.Delete (.bundle (getGatewayObject x manager kind)) st
    match r.1 with
    | some err => (some err, r.2)
    | none => CheGateway.deleteAll x manager rest r.2

/-- Modelled from the spec: `CheGateway.Delete`, which is not among the
sources (section 4.2): `Syncer.Delete` on each member of the bundle. -/
def CheGateway.Delete (x : Externals) (manager : CheManager) (st : Store) :
    Option GoError × Store :=
  CheGateway.deleteAll x manager bundleKinds st

/-- The collaborators of the reconciler over the backing store: the client
reads and writes the store, the syncer and the gateway are the ones
modelled above. -/
def storeCollaborators (x : Externals) : Collaborators Store :=
  { clientGet := fun key st =>
      match st.Get .CheManager key with
      | .ok (.cheManager m) => (.ok m, st)
      | .ok _ => (.error ⟨"InternalError", "not a CheManager"⟩, st)
      | .error err => (.error err, st)
    gatewaySync := CheGateway.Sync x
    gatewayDelete := CheGateway.Delete x
    syncerSync := Syncer.Sync
    syncerDelete := Syncer.Delete
    statusUpdate := fun manager st => st.UpdateStatus manager }

/-- A store that holds only the given resource. -/
def storeOf (manager : CheManager) : Store :=
  { objects := [.cheManager manager], writes := [] }

/-- An edit of the resource's routing by its owner, from outside the
controller. -/
def Store.editRouting (st : Store) (key : NamespacedName) (routing : CheManagerRouting) :
    Store :=
  { st with
    objects := st.objects.map (fun o =>
        match o with
        | .cheManager m =>
          if (Object.cheManager m).is .CheManager key then
            .cheManager { m with Spec := { m.Spec with Routing := routing } }
          else o
        | _ => o) }

/-- The phase stored for the resource of the given identity. -/
def Store.phase? (st : Store) (key : NamespacedName) : Option GatewayPhase :=
  match st.find? .CheManager key with
  | some (.cheManager m) => some m.Status.GatewayPhase
  | _ => none

/-- Whether the store holds an object of the given kind and identity. -/
def Store.has (st : Store) (kind : Kind) (key : NamespacedName) : Bool :=
  (st.find? kind key).isSome

/-- The route of the resource `che` as the platform keeps it once created:
owned by the resource, with the wildcard policy defaulted and a status. -/
def admittedRoute : Route :=
  { getRouteSpec kubernetesExternals (cheResource SingleHost "") with
    TypeMeta := ⟨"Route", "route.openshift.io/v1"⟩
    ObjectMeta :=
      { (getRouteSpec kubernetesExternals (cheResource SingleHost "")).ObjectMeta with
        OwnerReferences := [⟨"CheManager", "che"⟩] }
    Spec :=
      { (getRouteSpec kubernetesExternals (cheResource SingleHost "")).Spec with
        WildcardPolicy := "None" }
    Status := .struct "RouteStatus"
      [("Ingress", .list [.struct "RouteIngress" [("Host", .str "over.the.rainbow")]])] }

/-- The identity of the resource of the concrete scenario. -/
def scenarioKey : NamespacedName := ⟨"default", "che"⟩

/-- The externals of the concrete scenario, on either platform. -/
def scenarioExternals (openShift : Bool) : Externals :=
  { kubernetesExternals with OpenShift := openShift }

/-- One `Reconcile` of the scenario's resource over the backing store. -/
def scenarioReconcile (openShift : Bool) (st : Store) : Outcome Store (Result × Option GoError) :=
  Reconcile (scenarioExternals openShift) (storeCollaborators (scenarioExternals openShift))
    scenarioKey st

/-- The first `Reconcile`, on a store that holds only the resource
`che` with `SingleHost` routing and a fresh status. -/
def scenarioFirst (openShift : Bool) : Outcome Store (Result × Option GoError) :=
  scenarioReconcile openShift (storeOf (cheResource SingleHost ""))

/-- The second `Reconcile`, on the store the first one left. -/
def scenarioSecond (openShift : Bool) : Outcome Store (Result × Option GoError) :=
  scenarioReconcile openShift (scenarioFirst openShift).state

/-- The store after the second `Reconcile` with the routing flipped to
`MultiHost`. -/
def scenarioFlipped (openShift : Bool) : Store :=
  (scenarioSecond openShift).state.editRouting scenarioKey MultiHost

/-- The third `Reconcile`, after the flip. -/
def scenarioThird (openShift : Bool) : Outcome Store (Result × Option GoError) :=
  scenarioReconcile openShift (scenarioFlipped openShift)

/-- The kinds of the managed objects: the six of the bundle, then the entry
point of the platform. -/
def managedKinds (openShift : Bool) : List Kind :=
  bundleKinds.map Kind.Bundle ++ [if openShift then Kind.Route else Kind.Ingress]

/-! # Theorems -/

theorem singleHost_ne_multiHost : SingleHost ≠ MultiHost := by decide

/-- The phase `updateStatus` computes, read off its three branches. -/
theorem updateStatus_unfold {σ : Type} (c : Collaborators σ) (manager : CheManager)
    (changed : Bool) (s : σ) (p : GatewayPhase)
    (hp : p = (if manager.Spec.Routing = MultiHost then GatewayPhaseInactive
         else if changed = true then GatewayPhaseInitializing
         else GatewayPhaseEstablished)) :
    updateStatus c manager changed s =
      if manager.Status.GatewayPhase ≠ p then
        { val := { result := { Requeue := true },
                   err := (c.statusUpdate (manager.setGatewayPhase p) s).1,
                   manager := manager.setGatewayPhase p }
          state := (c.statusUpdate (manager.setGatewayPhase p) s).2
          calls := [⟨.statusUpdate (manager.setGatewayPhase p),
                     (c.statusUpdate (manager.setGatewayPhase p) s).1⟩] }
      else
        { val := { result := { Requeue := manager.Status.GatewayPhase == GatewayPhaseInitializing },
                   err := none,
                   manager := manager.setGatewayPhase p }
          state := s
          calls := [] } := by
  subst hp
  unfold updateStatus
  by_cases h1 : manager.Spec.Routing = MultiHost <;> by_cases h2 : changed = true <;>
    simp [h1, h2, CheManager.setGatewayPhase]

/-- The resource `updateStatus` leaves behind. -/
theorem updateStatus_manager {σ : Type} (c : Collaborators σ) (manager : CheManager)
    (changed : Bool) (s : σ) :
    (updateStatus c manager changed s).val.manager =
      manager.setGatewayPhase
        (if manager.Spec.Routing = MultiHost then GatewayPhaseInactive
         else if changed = true then GatewayPhaseInitializing
         else GatewayPhaseEstablished) := by
  rw [updateStatus_unfold c manager changed s _ rfl]
  generalize (if manager.Spec.Routing = MultiHost then GatewayPhaseInactive
    else if changed = true then GatewayPhaseInitializing else GatewayPhaseEstablished) = p
  by_cases h : manager.Status.GatewayPhase ≠ p
  · rw [if_pos h]
  · rw [if_neg h]

/-- The phase `updateStatus` leaves behind. -/
theorem updateStatus_newPhase {σ : Type} (c : Collaborators σ) (manager : CheManager)
    (changed : Bool) (s : σ) :
    (updateStatus c manager changed s).val.manager.Status.GatewayPhase =
      (if manager.Spec.Routing = MultiHost then GatewayPhaseInactive
       else if changed = true then GatewayPhaseInitializing
       else GatewayPhaseEstablished) := by
  rw [updateStatus_manager]; rfl

/-- The requeue flag of `updateStatus`, in terms of the phase it computed. -/
theorem updateStatus_result_requeue {σ : Type} (c : Collaborators σ) (manager : CheManager)
    (changed : Bool) (s : σ) :
    (updateStatus c manager changed s).val.result.Requeue =
      if manager.Status.GatewayPhase ≠
          (updateStatus c manager changed s).val.manager.Status.GatewayPhase then true
      else manager.Status.GatewayPhase == GatewayPhaseInitializing := by
  rw [updateStatus_newPhase, updateStatus_unfold c manager changed s _ rfl]
  generalize (if manager.Spec.Routing = MultiHost then GatewayPhaseInactive
    else if changed = true then GatewayPhaseInitializing else GatewayPhaseEstablished) = p
  by_cases h : manager.Status.GatewayPhase ≠ p
  · rw [if_pos h, if_pos h]
  · rw [if_neg h, if_neg h]

/-- The calls of `updateStatus`: one status write when the phase changed,
none otherwise. -/
theorem updateStatus_calls {σ : Type} (c : Collaborators σ) (manager : CheManager)
    (changed : Bool) (s : σ) :
    (updateStatus c manager changed s).calls =
      if manager.Status.GatewayPhase ≠
          (updateStatus c manager changed s).val.manager.Status.GatewayPhase then
        [⟨.statusUpdate (updateStatus c manager changed s).val.manager,
          (c.statusUpdate (updateStatus c manager changed s).val.manager s).1⟩]
      else [] := by
  rw [updateStatus_newPhase, updateStatus_manager,
    updateStatus_unfold c manager changed s _ rfl]
  generalize (if manager.Spec.Routing = MultiHost then GatewayPhaseInactive
    else if changed = true then GatewayPhaseInitializing else GatewayPhaseEstablished) = p
  by_cases h : manager.Status.GatewayPhase ≠ p
  · rw [if_pos h, if_pos h]
  · rw [if_neg h, if_neg h]

/-- The error of `updateStatus`: that of the status write when the phase
changed, none otherwise. -/
theorem updateStatus_err {σ : Type} (c : Collaborators σ) (manager : CheManager)
    (changed : Bool) (s : σ) :
    (updateStatus c manager changed s).val.err =
      if manager.Status.GatewayPhase ≠
          (updateStatus c manager changed s).val.manager.Status.GatewayPhase then
        (c.statusUpdate (updateStatus c manager changed s).val.manager s).1
      else none := by
  rw [updateStatus_newPhase, updateStatus_manager,
    updateStatus_unfold c manager changed s _ rfl]
  generalize (if manager.Spec.Routing = MultiHost then GatewayPhaseInactive
    else if changed = true then GatewayPhaseInitializing else GatewayPhaseEstablished) = p
  by_cases h : manager.Status.GatewayPhase ≠ p
  · rw [if_pos h, if_pos h]
  · rw [if_neg h, if_neg h]

/-- The state `updateStatus` leaves: that of the status write when the
phase changed, the one it started in otherwise. -/
theorem updateStatus_state {σ : Type} (c : Collaborators σ) (manager : CheManager)
    (changed : Bool) (s : σ) :
    (updateStatus c manager changed s).state =
      if manager.Status.GatewayPhase ≠
          (updateStatus c manager changed s).val.manager.Status.GatewayPhase then
        (c.statusUpdate (updateStatus c manager changed s).val.manager s).2
      else s := by
  rw [updateStatus_newPhase, updateStatus_manager,
    updateStatus_unfold c manager changed s _ rfl]
  generalize (if manager.Spec.Routing = MultiHost then GatewayPhaseInactive
    else if changed = true then GatewayPhaseInitializing else GatewayPhaseEstablished) = p
  by_cases h : manager.Status.GatewayPhase ≠ p
  · rw [if_pos h, if_pos h]
  · rw [if_neg h, if_neg h]

/-- The outcome of `Reconcile` when loading the resource fails. -/
theorem Reconcile_of_get_error {σ : Type} (x : Externals) (c : Collaborators σ)
    (req : NamespacedName) (s s1 : σ) (err : GoError)
    (hget : c.clientGet req s = (.error err, s1)) :
    Reconcile x c req s =
      { val := ({ Requeue := false }, if IsNotFound err then none else some err)
        state := s1
        calls := [⟨.clientGet req, some err⟩] } := by
  unfold Reconcile
  rw [hget]
  by_cases h : IsNotFound err = true <;> simp [h]

/-- The outcome of `Reconcile` of a resource that carries a deletion marker. -/
theorem Reconcile_of_deleted {σ : Type} (x : Externals) (c : Collaborators σ)
    (req : NamespacedName) (s s1 : σ) (current : CheManager)
    (hget : c.clientGet req s = (.ok current, s1))
    (hdel : current.ObjectMeta.DeletionTimestamp.isSome = true) :
    Reconcile x c req s =
      { val := ({ Requeue := false }, none), state := s1, calls := [⟨.clientGet req, none⟩] } := by
  unfold Reconcile
  rw [hget]
  simp [hdel, finalize]

/-- The outcome of `Reconcile` when the gateway reconcile fails. -/
theorem Reconcile_of_gateway_error {σ : Type} (x : Externals) (c : Collaborators σ)
    (req : NamespacedName) (s s1 : σ) (current : CheManager) (err : GoError)
    (hget : c.clientGet req s = (.ok current, s1))
    (hdel : current.ObjectMeta.DeletionTimestamp.isSome = false)
    (hg : (reconcileGateway c current s1).val.2 = some err) :
    Reconcile x c req s =
      { val := ({ Requeue := false }, some err)
        state := (reconcileGateway c current s1).state
        calls := ⟨.clientGet req, none⟩ :: (reconcileGateway c current s1).calls } := by
  unfold Reconcile
  rw [hget]
  simp [hdel, hg]

/-- The outcome of `Reconcile` when the entry-point reconcile fails. -/
theorem Reconcile_of_entryPoint_error {σ : Type} (x : Externals) (c : Collaborators σ)
    (req : NamespacedName) (s s1 : σ) (current : CheManager) (err : GoError)
    (hget : c.clientGet req s = (.ok current, s1))
    (hdel : current.ObjectMeta.DeletionTimestamp.isSome = false)
    (hg : (reconcileGateway c current s1).val.2 = none)
    (he : (reconcileEntryPoint x c current (reconcileGateway c current s1).state).val.2 =
      some err) :
    Reconcile x c req s =
      { val := ({ Requeue := false }, some err)
        state := (reconcileEntryPoint x c current (reconcileGateway c current s1).state).state
        calls := ⟨.clientGet req, none⟩ :: ((reconcileGateway c current s1).calls ++
          (reconcileEntryPoint x c current (reconcileGateway c current s1).state).calls) } := by
  unfold Reconcile
  rw [hget]
  simp [hdel, hg, he]

/-- The outcome of `Reconcile` when it reaches `updateStatus`. -/
theorem Reconcile_of_reconciled {σ : Type} (x : Externals) (c : Collaborators σ)
    (req : NamespacedName) (s s1 : σ) (current : CheManager)
    (hget : c.clientGet req s = (.ok current, s1))
    (hdel : current.ObjectMeta.DeletionTimestamp.isSome = false)
    (hg : (reconcileGateway c current s1).val.2 = none)
    (he : (reconcileEntryPoint x c current (reconcileGateway c current s1).state).val.2 = none) :
    Reconcile x c req s =
      { val :=
          ((updateStatus c current
              ((reconcileGateway c current s1).val.1 ||
                (reconcileEntryPoint x c current (reconcileGateway c current s1).state).val.1)
              (reconcileEntryPoint x c current (reconcileGateway c current s1).state).state).val.result,
           (updateStatus c current
              ((reconcileGateway c current s1).val.1 ||
                (reconcileEntryPoint x c current (reconcileGateway c current s1).state).val.1)
              (reconcileEntryPoint x c current (reconcileGateway c current s1).state).state).val.err)
        state :=
          (updateStatus c current
              ((reconcileGateway c current s1).val.1 ||
                (reconcileEntryPoint x c current (reconcileGateway c current s1).state).val.1)
              (reconcileEntryPoint x c current (reconcileGateway c current s1).state).state).state
        calls := ⟨.clientGet req, none⟩ :: ((reconcileGateway c current s1).calls ++
          (reconcileEntryPoint x c current (reconcileGateway c current s1).state).calls ++
          (updateStatus c current
              ((reconcileGateway c current s1).val.1 ||
                (reconcileEntryPoint x c current (reconcileGateway c current s1).state).val.1)
              (reconcileEntryPoint x c current (reconcileGateway c current s1).state).state).calls) } := by
  unfold Reconcile
  rw [hget]
  simp [hdel, hg, he]

/-- The one call of `reconcileGateway` and the error it recorded. -/
theorem reconcileGateway_calls {σ : Type} (c : Collaborators σ) (manager : CheManager) (s : σ) :
    ∃ op, (reconcileGateway c manager s).calls = [⟨op, (reconcileGateway c manager s).val.2⟩] ∧
      (Call.mk op (reconcileGateway c manager s).val.2).isStatusUpdate = false ∧
      (Call.mk op (reconcileGateway c manager s).val.2).failure =
        (reconcileGateway c manager s).val.2 := by
  unfold reconcileGateway
  split
  · exact ⟨_, rfl, rfl, rfl⟩
  · exact ⟨_, rfl, rfl, rfl⟩

/-- The one call of the entry-point reconcile and the error it recorded. -/
theorem reconcileEntryPoint_calls {σ : Type} (x : Externals) (c : Collaborators σ)
    (manager : CheManager) (s : σ) :
    ∃ op, (reconcileEntryPoint x c manager s).calls =
        [⟨op, (reconcileEntryPoint x c manager s).val.2⟩] ∧
      (Call.mk op (reconcileEntryPoint x c manager s).val.2).isStatusUpdate = false ∧
      (Call.mk op (reconcileEntryPoint x c manager s).val.2).failure =
        (reconcileEntryPoint x c manager s).val.2 := by
  unfold reconcileEntryPoint reconcileRoute reconcileIngress
  split <;> split <;> exact ⟨_, rfl, rfl, rfl⟩

/-- C1: the phase `updateStatus` stores is `Inactive` for `MultiHost`
routing, otherwise `Initializing` when `changed`, otherwise `Established`;
nothing else of the resource is touched, a status write that is issued
carries that resource, and two resources with the same routing get the same
phase whatever their previous phases were. -/
theorem updateStatus_phase {σ : Type} (c : Collaborators σ) (manager : CheManager)
    (changed : Bool) (s : σ) :
    (updateStatus c manager changed s).val.manager.Status.GatewayPhase =
        (if manager.Spec.Routing = MultiHost then GatewayPhaseInactive
         else if changed = true then GatewayPhaseInitializing
         else GatewayPhaseEstablished) ∧
      (updateStatus c manager changed s).val.manager =
        manager.setGatewayPhase
          (updateStatus c manager changed s).val.manager.Status.GatewayPhase ∧
      (∀ call ∈ (updateStatus c manager changed s).calls,
        call.op = .statusUpdate (updateStatus c manager changed s).val.manager) ∧
      (∀ (other : CheManager) (t : σ), other.Spec.Routing = manager.Spec.Routing →
        (updateStatus c other changed t).val.manager.Status.GatewayPhase =
          (updateStatus c manager changed s).val.manager.Status.GatewayPhase) := by
  have key : ∀ (m : CheManager) (t : σ),
      (updateStatus c m changed t).val.manager =
        m.setGatewayPhase
          (if m.Spec.Routing = MultiHost then GatewayPhaseInactive
           else if changed = true then GatewayPhaseInitializing
           else GatewayPhaseEstablished) := by
    intro m t
    rw [updateStatus_unfold c m changed t _ rfl]
    generalize (if m.Spec.Routing = MultiHost then GatewayPhaseInactive
      else if changed = true then GatewayPhaseInitializing else GatewayPhaseEstablished) = p
    by_cases h : m.Status.GatewayPhase ≠ p
    · rw [if_pos h]
    · rw [if_neg h]
  refine ⟨?_, ?_, ?_, ?_⟩
  · rw [key]; rfl
  · rw [key]; rfl
  · intro call hcall
    rw [updateStatus_unfold c manager changed s _ rfl] at hcall ⊢
    generalize (if manager.Spec.Routing = MultiHost then GatewayPhaseInactive
      else if changed = true then GatewayPhaseInitializing else GatewayPhaseEstablished) = p
      at hcall ⊢
    by_cases h : manager.Status.GatewayPhase ≠ p
    · rw [if_pos h] at hcall ⊢
      simp only [List.mem_singleton] at hcall
      subst hcall
      rfl
    · rw [if_neg h] at hcall
      simp at hcall
  · intro other t h
    rw [key, key, h]; rfl

/-- C2: the requeue flag `updateStatus` returns is true exactly when the new
phase differs from the previous one or is `Initializing`; for `SingleHost`
a change always requeues, no change coming from `Initializing` gives
`Established` with a requeue, and no change coming from `Established` gives
`Established` without one. -/
theorem updateStatus_requeue {σ : Type} (c : Collaborators σ) (manager : CheManager)
    (changed : Bool) (s : σ) (om : ObjectMeta) (host : String) (previous : GatewayPhase) :
    ((updateStatus c manager changed s).val.result.Requeue = true ↔
        ((updateStatus c manager changed s).val.manager.Status.GatewayPhase ≠
            manager.Status.GatewayPhase ∨
          (updateStatus c manager changed s).val.manager.Status.GatewayPhase =
            GatewayPhaseInitializing)) ∧
      (updateStatus c ⟨om, ⟨host, SingleHost⟩, ⟨previous⟩⟩ true s).val.result.Requeue = true ∧
      ((updateStatus c ⟨om, ⟨host, SingleHost⟩, ⟨GatewayPhaseInitializing⟩⟩ false
            s).val.manager.Status.GatewayPhase = GatewayPhaseEstablished ∧
        (updateStatus c ⟨om, ⟨host, SingleHost⟩, ⟨GatewayPhaseInitializing⟩⟩ false
            s).val.result.Requeue = true) ∧
      ((updateStatus c ⟨om, ⟨host, SingleHost⟩, ⟨GatewayPhaseEstablished⟩⟩ false
            s).val.manager.Status.GatewayPhase = GatewayPhaseEstablished ∧
        (updateStatus c ⟨om, ⟨host, SingleHost⟩, ⟨GatewayPhaseEstablished⟩⟩ false
            s).val.result.Requeue = false) := by
  refine ⟨?_, ?_, ⟨?_, ?_⟩, ⟨?_, ?_⟩⟩
  · rw [updateStatus_result_requeue]
    generalize (updateStatus c manager changed s).val.manager.Status.GatewayPhase = p
    by_cases h : manager.Status.GatewayPhase ≠ p
    · rw [if_pos h]
      exact ⟨fun _ => Or.inl (Ne.symm h), fun _ => rfl⟩
    · rw [if_neg h]
      have h' : manager.Status.GatewayPhase = p := not_not.mp h
      rw [h']
      constructor
      · intro hq
        exact Or.inr (by simpa using hq)
      · rintro (hq | hq)
        · exact absurd rfl hq
        · simp [hq]
  · rw [updateStatus_result_requeue, updateStatus_newPhase]
    simp [singleHost_ne_multiHost]
    exact (em _).symm
  · rw [updateStatus_newPhase]
    simp [singleHost_ne_multiHost]
  · rw [updateStatus_result_requeue, updateStatus_newPhase]
    simp [singleHost_ne_multiHost]
  · rw [updateStatus_newPhase]
    simp [singleHost_ne_multiHost]
  · rw [updateStatus_result_requeue, updateStatus_newPhase]
    simp [singleHost_ne_multiHost]
    decide

/-- C3: an invocation of `Reconcile` issues the status write at most once,
and issues it exactly when the resource was loaded, carries no deletion
marker, the gateway reconcile and the entry-point reconcile returned no
error and the newly computed phase differs from the stored one; so no
status write happens when loading or either reconcile fails. -/
theorem Reconcile_status_write {σ : Type} (x : Externals) (c : Collaborators σ)
    (req : NamespacedName) (s : σ) :
    (Reconcile x c req s).calls.countP Call.isStatusUpdate ≤ 1 ∧
      ((Reconcile x c req s).calls.countP Call.isStatusUpdate = 1 ↔
        ∃ current s1,
          c.clientGet req s = (.ok current, s1) ∧
          current.ObjectMeta.DeletionTimestamp = none ∧
          (reconcileGateway c current s1).val.2 = none ∧
          (reconcileEntryPoint x c current (reconcileGateway c current s1).state).val.2 = none ∧
          (updateStatus c current
              ((reconcileGateway c current s1).val.1 ||
                (reconcileEntryPoint x c current (reconcileGateway c current s1).state).val.1)
              (reconcileEntryPoint x c current
                (reconcileGateway c current s1).state).state).val.manager.Status.GatewayPhase ≠
            current.Status.GatewayPhase) := by
  have hG : ∀ e, Call.isStatusUpdate ⟨.clientGet req, e⟩ = false := fun _ => rfl
  have hU : ∀ m e, Call.isStatusUpdate ⟨.statusUpdate m, e⟩ = true := fun _ _ => rfl
  rcases hget : c.clientGet req s with ⟨r, s1⟩
  cases r with
  | error err =>
    rw [Reconcile_of_get_error x c req s s1 err hget]
    have h0 : List.countP Call.isStatusUpdate [(⟨.clientGet req, some err⟩ : Call)] = 0 := by
      simp [hG]
    simp only [h0]
    refine ⟨by omega, ⟨fun h => by omega, ?_⟩⟩
    rintro ⟨current, s2, h, _⟩
    simp at h
  | ok current =>
    by_cases hdel : current.ObjectMeta.DeletionTimestamp.isSome = true
    · rw [Reconcile_of_deleted x c req s s1 current hget hdel]
      have h0 : List.countP Call.isStatusUpdate [(⟨.clientGet req, none⟩ : Call)] = 0 := by
        simp [hG]
      simp only [h0]
      refine ⟨by omega, ⟨fun h => by omega, ?_⟩⟩
      rintro ⟨current2, s2, h, hd, _⟩
      simp only [Prod.mk.injEq, Except.ok.injEq] at h
      obtain ⟨h1, h2⟩ := h
      subst h1 h2
      rw [hd] at hdel
      simp at hdel
    · have hdel' : current.ObjectMeta.DeletionTimestamp.isSome = false := by simpa using hdel
      have hnone : current.ObjectMeta.DeletionTimestamp = none := by
        cases hd : current.ObjectMeta.DeletionTimestamp with
        | none => rfl
        | some t => rw [hd] at hdel'; simp at hdel'
      obtain ⟨gop, hgc, hgs, -⟩ := reconcileGateway_calls c current s1
      cases hg : (reconcileGateway c current s1).val.2 with
      | some err =>
        rw [Reconcile_of_gateway_error x c req s s1 current err hget hdel' hg]
        rw [hg] at hgc hgs
        have h0 : List.countP Call.isStatusUpdate
            ((⟨.clientGet req, none⟩ : Call) :: (reconcileGateway c current s1).calls) = 0 := by
          rw [hgc]; simp [hG, hgs]
        simp only [h0]
        refine ⟨by omega, ⟨fun h => by omega, ?_⟩⟩
        rintro ⟨current2, s2, h, _, hg2, _⟩
        simp only [Prod.mk.injEq, Except.ok.injEq] at h
        obtain ⟨h1, h2⟩ := h
        subst h1 h2
        rw [hg] at hg2
        simp at hg2
      | none =>
        obtain ⟨eop, hec, hes, -⟩ :=
          reconcileEntryPoint_calls x c current (reconcileGateway c current s1).state
        rw [hg] at hgc hgs
        cases he : (reconcileEntryPoint x c current (reconcileGateway c current s1).state).val.2 with
        | some err =>
          rw [Reconcile_of_entryPoint_error x c req s s1 current err hget hdel' hg he]
          rw [he] at hec hes
          have h0 : List.countP Call.isStatusUpdate
              ((⟨.clientGet req, none⟩ : Call) :: ((reconcileGateway c current s1).calls ++
                (reconcileEntryPoint x c current
                  (reconcileGateway c current s1).state).calls)) = 0 := by
            rw [hgc, hec]; simp [hG, hgs, hes]
          simp only [h0]
          refine ⟨by omega, ⟨fun h => by omega, ?_⟩⟩
          rintro ⟨current2, s2, h, _, _, he2, _⟩
          simp only [Prod.mk.injEq, Except.ok.injEq] at h
          obtain ⟨h1, h2⟩ := h
          subst h1 h2
          rw [he] at he2
          simp at he2
        | none =>
          rw [Reconcile_of_reconciled x c req s s1 current hget hdel' hg he]
          rw [he] at hec hes
          simp only [hgc, hec, updateStatus_calls]
          by_cases hp : current.Status.GatewayPhase ≠
              (updateStatus c current
                ((reconcileGateway c current s1).val.1 ||
                  (reconcileEntryPoint x c current (reconcileGateway c current s1).state).val.1)
                (reconcileEntryPoint x c current
                  (reconcileGateway c current s1).state).state).val.manager.Status.GatewayPhase
          · rw [if_pos hp]
            have h1 : ∀ u : Call, u.isStatusUpdate = true →
                List.countP Call.isStatusUpdate
                  ((⟨.clientGet req, none⟩ : Call) ::
                    ([(⟨gop, none⟩ : Call)] ++ [(⟨eop, none⟩ : Call)] ++ [u])) = 1 := by
              intro u hu
              simp [hG, hgs, hes, hu]
            rw [h1 _ (hU _ _)]
            exact ⟨le_refl 1, ⟨fun _ => ⟨current, s1, rfl, hnone, hg, he, Ne.symm hp⟩,
              fun _ => rfl⟩⟩
          · rw [if_neg hp]
            have h0 : List.countP Call.isStatusUpdate
                ((⟨.clientGet req, none⟩ : Call) ::
                  ([(⟨gop, none⟩ : Call)] ++ [(⟨eop, none⟩ : Call)] ++ [])) = 0 := by
              simp [hG, hgs, hes]
            rw [h0]
            refine ⟨by omega, ⟨fun h => by omega, ?_⟩⟩
            rintro ⟨current2, s2, h, _, _, _, hp2⟩
            simp only [Prod.mk.injEq, Except.ok.injEq] at h
            obtain ⟨h1, h2⟩ := h
            subst h1 h2
            exact absurd (Ne.symm hp2) hp

/-- The value, the state and the call of `reconcileGateway`, from what the
gateway returned. -/
theorem reconcileGateway_result {σ : Type} (c : Collaborators σ) (manager : CheManager)
    (s : σ) :
    (reconcileGateway c manager s).val =
        (if manager.Spec.Routing = SingleHost then (c.gatewaySync manager s).1
         else (true, (c.gatewayDelete manager s).1)) ∧
      (reconcileGateway c manager s).state =
        (if manager.Spec.Routing = SingleHost then (c.gatewaySync manager s).2
         else (c.gatewayDelete manager s).2) ∧
      (reconcileGateway c manager s).calls =
        [⟨if manager.Spec.Routing = SingleHost then .gatewaySync manager
          else .gatewayDelete manager, (reconcileGateway c manager s).val.2⟩] := by
  unfold reconcileGateway
  by_cases h : manager.Spec.Routing = SingleHost
  · simp [h]
  · simp [h]

/-- The value, the state and the call of the entry-point reconcile, from
what the syncer returned. -/
theorem reconcileEntryPoint_result {σ : Type} (x : Externals) (c : Collaborators σ)
    (manager : CheManager) (s : σ) :
    (reconcileEntryPoint x c manager s).val =
        (if manager.Spec.Routing = SingleHost then
          (c.syncerSync manager (entryPointObject x manager) (entryPointDiffOpts x) s).1
         else (true, (c.syncerDelete (entryPointObject x manager) s).1)) ∧
      (reconcileEntryPoint x c manager s).state =
        (if manager.Spec.Routing = SingleHost then
          (c.syncerSync manager (entryPointObject x manager) (entryPointDiffOpts x) s).2
         else (c.syncerDelete (entryPointObject x manager) s).2) ∧
      (reconcileEntryPoint x c manager s).calls =
        [⟨if manager.Spec.Routing = SingleHost then
            .syncerSync manager (entryPointObject x manager) (entryPointDiffOpts x)
          else .syncerDelete (entryPointObject x manager),
          (reconcileEntryPoint x c manager s).val.2⟩] := by
  unfold reconcileEntryPoint reconcileRoute reconcileIngress entryPointObject entryPointDiffOpts
  by_cases ho : x.OpenShift = true <;> by_cases h : manager.Spec.Routing = SingleHost
  · simp [ho, h]
  · simp [ho, h]
  · simp [ho, h]
  · simp [ho, h]

/-- The value `Reconcile` returns, step by step from what the load, the
two reconciles and `updateStatus` returned. -/
theorem Reconcile_val {σ : Type} (x : Externals) (c : Collaborators σ)
    (req : NamespacedName) (s : σ) :
    (Reconcile x c req s).val =
      match c.clientGet req s with
      | (.error err, _) => ({ Requeue := false }, if IsNotFound err then none else some err)
      | (.ok current, s1) =>
        if current.ObjectMeta.DeletionTimestamp.isSome then ({ Requeue := false }, none)
        else
          match (reconcileGateway c current s1).val.2 with
          | some err => ({ Requeue := false }, some err)
          | none =>
            match (reconcileEntryPoint x c current (reconcileGateway c current s1).state).val.2 with
            | some err => ({ Requeue := false }, some err)
            | none =>
              ((updateStatus c current
                  ((reconcileGateway c current s1).val.1 ||
                    (reconcileEntryPoint x c current
                      (reconcileGateway c current s1).state).val.1)
                  (reconcileEntryPoint x c current
                    (reconcileGateway c current s1).state).state).val.result,
               (updateStatus c current
                  ((reconcileGateway c current s1).val.1 ||
                    (reconcileEntryPoint x c current
                      (reconcileGateway c current s1).state).val.1)
                  (reconcileEntryPoint x c current
                    (reconcileGateway c current s1).state).state).val.err) := by
  rcases hget : c.clientGet req s with ⟨r, s1⟩
  cases r with
  | error err => rw [Reconcile_of_get_error x c req s s1 err hget]
  | ok current =>
    by_cases hdel : current.ObjectMeta.DeletionTimestamp.isSome = true
    · rw [Reconcile_of_deleted x c req s s1 current hget hdel]
      simp only [hdel, if_true]
    · have hdel' : current.ObjectMeta.DeletionTimestamp.isSome = false := by simpa using hdel
      cases hg : (reconcileGateway c current s1).val.2 with
      | some err =>
        rw [Reconcile_of_gateway_error x c req s s1 current err hget hdel' hg]
        simp only [hdel', hg]
        rfl
      | none =>
        cases he : (reconcileEntryPoint x c current
            (reconcileGateway c current s1).state).val.2 with
        | some err =>
          rw [Reconcile_of_entryPoint_error x c req s s1 current err hget hdel' hg he]
          simp only [hdel', hg, he]
          rfl
        | none =>
          rw [Reconcile_of_reconciled x c req s s1 current hget hdel' hg he]
          simp only [hdel', hg, he]
          rfl

/-- The error `Reconcile` returns is the failure of the first recorded call
that failed, none when no recorded call failed. -/
theorem Reconcile_error_trace {σ : Type} (x : Externals) (c : Collaborators σ)
    (req : NamespacedName) (s : σ) :
    (Reconcile x c req s).val.2 = (Reconcile x c req s).calls.findSome? Call.failure := by
  have hG : ∀ e, Call.failure ⟨.clientGet req, e⟩ = e.filter fun err => !IsNotFound err :=
    fun _ => rfl
  rcases hget : c.clientGet req s with ⟨r, s1⟩
  cases r with
  | error err =>
    rw [Reconcile_of_get_error x c req s s1 err hget]
    by_cases h : IsNotFound err = true <;> simp [hG, Option.filter, h]
  | ok current =>
    by_cases hdel : current.ObjectMeta.DeletionTimestamp.isSome = true
    · rw [Reconcile_of_deleted x c req s s1 current hget hdel]
      simp [hG, Option.filter]
    · have hdel' : current.ObjectMeta.DeletionTimestamp.isSome = false := by simpa using hdel
      obtain ⟨gop, hgc, -, hgf⟩ := reconcileGateway_calls c current s1
      cases hg : (reconcileGateway c current s1).val.2 with
      | some err =>
        rw [Reconcile_of_gateway_error x c req s s1 current err hget hdel' hg]
        rw [hg] at hgc hgf
        simp only [hgc]
        simp [hG, Option.filter, hgf]
      | none =>
        obtain ⟨eop, hec, -, hef⟩ :=
          reconcileEntryPoint_calls x c current (reconcileGateway c current s1).state
        rw [hg] at hgc hgf
        cases he : (reconcileEntryPoint x c current
            (reconcileGateway c current s1).state).val.2 with
        | some err =>
          rw [Reconcile_of_entryPoint_error x c req s s1 current err hget hdel' hg he]
          rw [he] at hec hef
          simp only [hgc, hec]
          simp [hG, Option.filter, hgf, hef]
        | none =>
          rw [Reconcile_of_reconciled x c req s s1 current hget hdel' hg he]
          rw [he] at hec hef
          simp only [hgc, hec, updateStatus_calls, updateStatus_err]
          have hS : ∀ m e, List.findSome? Call.failure [(⟨.statusUpdate m, e⟩ : Call)] = e := by
            intro m e
            cases e <;> rfl
          split
          · simp [hG, Option.filter, hgf, hef, hS]
          · simp [hG, Option.filter, hgf, hef]


/-- C4: the value `Reconcile` returns is fixed by what its collaborators
returned: an error other than not-found from the load, else the error of
the gateway reconcile, else that of the entry-point reconcile, else that of
the status write, each unmodified, and no error when none of them failed;
the errors of the two reconciles and of `updateStatus` are those of
`gateway.Sync`/`gateway.Delete`, `syncer.Sync`/`syncer.Delete` and
`client.Status().Update`. When loading reports not-found, `Reconcile`
returns no error and no requeue and has called nothing but the load. The
returned error is also the failure of the first recorded call that
failed. -/
theorem Reconcile_error {σ : Type} (x : Externals) (c : Collaborators σ)
    (req : NamespacedName) (s : σ) :
    ((Reconcile x c req s).val =
      match c.clientGet req s with
      | (.error err, _) => ({ Requeue := false }, if IsNotFound err then none else some err)
      | (.ok current, s1) =>
        if current.ObjectMeta.DeletionTimestamp.isSome then ({ Requeue := false }, none)
        else
          match (reconcileGateway c current s1).val.2 with
          | some err => ({ Requeue := false }, some err)
          | none =>
            match (reconcileEntryPoint x c current (reconcileGateway c current s1).state).val.2 with
            | some err => ({ Requeue := false }, some err)
            | none =>
              ((updateStatus c current
                  ((reconcileGateway c current s1).val.1 ||
                    (reconcileEntryPoint x c current
                      (reconcileGateway c current s1).state).val.1)
                  (reconcileEntryPoint x c current
                    (reconcileGateway c current s1).state).state).val.result,
               (updateStatus c current
                  ((reconcileGateway c current s1).val.1 ||
                    (reconcileEntryPoint x c current
                      (reconcileGateway c current s1).state).val.1)
                  (reconcileEntryPoint x c current
                    (reconcileGateway c current s1).state).state).val.err)) ∧
    (∀ (manager : CheManager) (t : σ),
      (reconcileGateway c manager t).val =
        (if manager.Spec.Routing = SingleHost then (c.gatewaySync manager t).1
         else (true, (c.gatewayDelete manager t).1)) ∧
      (reconcileGateway c manager t).state =
        (if manager.Spec.Routing = SingleHost then (c.gatewaySync manager t).2
         else (c.gatewayDelete manager t).2) ∧
      (reconcileEntryPoint x c manager t).val =
        (if manager.Spec.Routing = SingleHost then
          (c.syncerSync manager (entryPointObject x manager) (entryPointDiffOpts x) t).1
         else (true, (c.syncerDelete (entryPointObject x manager) t).1)) ∧
      (reconcileEntryPoint x c manager t).state =
        (if manager.Spec.Routing = SingleHost then
          (c.syncerSync manager (entryPointObject x manager) (entryPointDiffOpts x) t).2
         else (c.syncerDelete (entryPointObject x manager) t).2)) ∧
    (∀ (manager : CheManager) (changed : Bool) (t : σ),
      (updateStatus c manager changed t).val.err =
        (if manager.Status.GatewayPhase ≠
            (updateStatus c manager changed t).val.manager.Status.GatewayPhase then
          (c.statusUpdate (updateStatus c manager changed t).val.manager t).1
         else none) ∧
      (updateStatus c manager changed t).state =
        (if manager.Status.GatewayPhase ≠
            (updateStatus c manager changed t).val.manager.Status.GatewayPhase then
          (c.statusUpdate (updateStatus c manager changed t).val.manager t).2
         else t)) ∧
    (∀ err, (Reconcile x c req s).val.2 = some err ↔
      (∃ s1, c.clientGet req s = (.error err, s1) ∧ IsNotFound err = false) ∨
      (∃ current s1, c.clientGet req s = (.ok current, s1) ∧
        current.ObjectMeta.DeletionTimestamp = none ∧
        ((reconcileGateway c current s1).val.2 = some err ∨
          ((reconcileGateway c current s1).val.2 = none ∧
            ((reconcileEntryPoint x c current (reconcileGateway c current s1).state).val.2 =
                some err ∨
              ((reconcileEntryPoint x c current (reconcileGateway c current s1).state).val.2 =
                  none ∧
                (updateStatus c current
                  ((reconcileGateway c current s1).val.1 ||
                    (reconcileEntryPoint x c current
                      (reconcileGateway c current s1).state).val.1)
                  (reconcileEntryPoint x c current
                    (reconcileGateway c current s1).state).state).val.err = some err)))))) ∧
    (∀ err s1, c.clientGet req s = (.error err, s1) → IsNotFound err = true →
      Reconcile x c req s =
        { val := ({ Requeue := false }, none), state := s1,
          calls := [⟨.clientGet req, some err⟩] }) ∧
    (Reconcile x c req s).val.2 = (Reconcile x c req s).calls.findSome? Call.failure := by
  refine ⟨Reconcile_val x c req s, ?_, ?_, ?_, ?_, Reconcile_error_trace x c req s⟩
  · intro manager t
    exact ⟨(reconcileGateway_result c manager t).1, (reconcileGateway_result c manager t).2.1,
      (reconcileEntryPoint_result x c manager t).1,
      (reconcileEntryPoint_result x c manager t).2.1⟩
  · intro manager changed t
    exact ⟨updateStatus_err c manager changed t, updateStatus_state c manager changed t⟩
  · intro e
    rw [Reconcile_val]
    rcases c.clientGet req s with ⟨r, s1⟩
    cases r with
    | error err =>
      by_cases hn : IsNotFound err = true
      · simp only [hn, if_true]
        constructor
        · intro h; simp at h
        · rintro (⟨s2, h, hf⟩ | ⟨current, s2, h, -⟩)
          · simp only [Prod.mk.injEq, Except.error.injEq] at h
            rw [h.1, hf] at hn
            simp at hn
          · simp at h
      · have hn' : IsNotFound err = false := by simpa using hn
        simp only [hn', Bool.false_eq_true, if_false]
        constructor
        · intro h
          simp only [Option.some.injEq] at h
          subst h
          exact Or.inl ⟨s1, rfl, hn'⟩
        · rintro (⟨s2, h, -⟩ | ⟨current, s2, h, -⟩)
          · simp only [Prod.mk.injEq, Except.error.injEq] at h
            rw [h.1]
          · simp at h
    | ok current =>
      by_cases hdel : current.ObjectMeta.DeletionTimestamp.isSome = true
      · simp only [hdel, if_true]
        constructor
        · intro h; simp at h
        · rintro (⟨s2, h, -⟩ | ⟨current2, s2, h, hd, -⟩)
          · simp at h
          · simp only [Prod.mk.injEq, Except.ok.injEq] at h
            obtain ⟨h1, h2⟩ := h
            subst h1 h2
            rw [hd] at hdel
            simp at hdel
      · have hnone : current.ObjectMeta.DeletionTimestamp = none := by
          cases hd : current.ObjectMeta.DeletionTimestamp with
          | none => rfl
          | some t => rw [hd] at hdel; simp at hdel
        have hdel' : current.ObjectMeta.DeletionTimestamp.isSome = false := by simpa using hdel
        simp only [hdel', Bool.false_eq_true, if_false]
        constructor
        · intro h
          refine Or.inr ⟨current, s1, rfl, hnone, ?_⟩
          cases hg : (reconcileGateway c current s1).val.2 with
          | some err =>
            rw [hg] at h
            simp only [Option.some.injEq] at h
            exact Or.inl (by rw [h])
          | none =>
            rw [hg] at h
            refine Or.inr ⟨rfl, ?_⟩
            cases he : (reconcileEntryPoint x c current
                (reconcileGateway c current s1).state).val.2 with
            | some err =>
              rw [he] at h
              simp only [Option.some.injEq] at h
              exact Or.inl (by rw [h])
            | none =>
              rw [he] at h
              exact Or.inr ⟨rfl, h⟩
        · rintro (⟨s2, h, -⟩ | ⟨current2, s2, h, -, hrest⟩)
          · simp at h
          · simp only [Prod.mk.injEq, Except.ok.injEq] at h
            obtain ⟨h1, h2⟩ := h
            subst h1 h2
            rcases hrest with hg | ⟨hg, he | ⟨he, hu⟩⟩
            · rw [hg]
            · rw [hg, he]
            · rw [hg, he]; exact hu
  · intro err s1 hget hnf
    rw [Reconcile_of_get_error x c req s s1 err hget, if_pos hnf]

/-- C5: for `SingleHost` routing `reconcileGateway`, `reconcileRoute` and
`reconcileIngress` make one call, `Sync` on the desired object, and return
what it returned; for `MultiHost` routing they make one call, `Delete`, and
return `changed = true` with its error; so for `MultiHost` a `Reconcile`
that reaches the phase computation runs `updateStatus` with
`changed = true`. -/
theorem reconcile_dispatch {σ : Type} (x : Externals) (c : Collaborators σ)
    (manager : CheManager) (s : σ) :
    (manager.Spec.Routing = SingleHost →
      reconcileGateway c manager s =
        { val := (c.gatewaySync manager s).1, state := (c.gatewaySync manager s).2,
          calls := [⟨.gatewaySync manager, (c.gatewaySync manager s).1.2⟩] } ∧
      reconcileRoute x c manager s =
        { val := (c.syncerSync manager (.route (getRouteSpec x manager)) routeDiffOpts s).1,
          state := (c.syncerSync manager (.route (getRouteSpec x manager)) routeDiffOpts s).2,
          calls := [⟨.syncerSync manager (.route (getRouteSpec x manager)) routeDiffOpts,
            (c.syncerSync manager (.route (getRouteSpec x manager)) routeDiffOpts s).1.2⟩] } ∧
      reconcileIngress x c manager s =
        { val := (c.syncerSync manager (.ingress (getIngressSpec x manager)) ingressDiffOpts s).1,
          state := (c.syncerSync manager (.ingress (getIngressSpec x manager)) ingressDiffOpts s).2,
          calls := [⟨.syncerSync manager (.ingress (getIngressSpec x manager)) ingressDiffOpts,
            (c.syncerSync manager (.ingress (getIngressSpec x manager))
              ingressDiffOpts s).1.2⟩] }) ∧
    (manager.Spec.Routing = MultiHost →
      reconcileGateway c manager s =
        { val := (true, (c.gatewayDelete manager s).1), state := (c.gatewayDelete manager s).2,
          calls := [⟨.gatewayDelete manager, (c.gatewayDelete manager s).1⟩] } ∧
      reconcileRoute x c manager s =
        { val := (true, (c.syncerDelete (.route (getRouteSpec x manager)) s).1),
          state := (c.syncerDelete (.route (getRouteSpec x manager)) s).2,
          calls := [⟨.syncerDelete (.route (getRouteSpec x manager)),
            (c.syncerDelete (.route (getRouteSpec x manager)) s).1⟩] } ∧
      reconcileIngress x c manager s =
        { val := (true, (c.syncerDelete (.ingress (getIngressSpec x manager)) s).1),
          state := (c.syncerDelete (.ingress (getIngressSpec x manager)) s).2,
          calls := [⟨.syncerDelete (.ingress (getIngressSpec x manager)),
            (c.syncerDelete (.ingress (getIngressSpec x manager)) s).1⟩] }) ∧
    (manager.Spec.Routing = MultiHost →
      ∀ (req : NamespacedName) (s0 : σ),
        c.clientGet req s0 = (.ok manager, s) →
        manager.ObjectMeta.DeletionTimestamp = none →
        (reconcileGateway c manager s).val.2 = none →
        (reconcileEntryPoint x c manager (reconcileGateway c manager s).state).val.2 = none →
        Reconcile x c req s0 =
          { val :=
              ((updateStatus c manager true
                  (reconcileEntryPoint x c manager
                    (reconcileGateway c manager s).state).state).val.result,
               (updateStatus c manager true
                  (reconcileEntryPoint x c manager
                    (reconcileGateway c manager s).state).state).val.err)
            state :=
              (updateStatus c manager true
                (reconcileEntryPoint x c manager (reconcileGateway c manager s).state).state).state
            calls := ⟨.clientGet req, none⟩ :: ((reconcileGateway c manager s).calls ++
              (reconcileEntryPoint x c manager (reconcileGateway c manager s).state).calls ++
              (updateStatus c manager true
                (reconcileEntryPoint x c manager
                  (reconcileGateway c manager s).state).state).calls) }) := by
  refine ⟨?_, ?_, ?_⟩
  · intro h
    refine ⟨?_, ?_, ?_⟩
    · unfold reconcileGateway; rw [if_pos h]
    · unfold reconcileRoute; simp only [if_pos h]
    · unfold reconcileIngress; simp only [if_pos h]
  · intro h
    have h' : ¬ manager.Spec.Routing = SingleHost := by
      rw [h]; exact Ne.symm singleHost_ne_multiHost
    refine ⟨?_, ?_, ?_⟩
    · unfold reconcileGateway; rw [if_neg h']
    · unfold reconcileRoute; simp only [if_neg h']
    · unfold reconcileIngress; simp only [if_neg h']
  · intro h req s0 hget hdel hg he
    have h' : ¬ manager.Spec.Routing = SingleHost := by
      rw [h]; exact Ne.symm singleHost_ne_multiHost
    have hch : (reconcileGateway c manager s).val.1 = true := by
      unfold reconcileGateway; rw [if_neg h']
    have hdel' : manager.ObjectMeta.DeletionTimestamp.isSome = false := by rw [hdel]; rfl
    rw [Reconcile_of_reconciled x c req s0 s manager hget hdel' hg he, hch]
    rfl

/-- The dispatch at a `MultiHost` resource `che` in a world that holds only
it: `Reconcile` requeues without error and stores the phase `Inactive`. -/
theorem reconcile_dispatch_witness :
    (cheResource MultiHost "").Spec.Routing = MultiHost ∧
      (Reconcile kubernetesExternals (cheWorld MultiHost false) ⟨"default", "che"⟩ "").val =
        ({ Requeue := true }, none) ∧
      (Reconcile kubernetesExternals (cheWorld MultiHost false) ⟨"default", "che"⟩ "").state =
        GatewayPhaseInactive := by
  have h := (reconcile_dispatch kubernetesExternals (cheWorld MultiHost false)
    (cheResource MultiHost "") "").2.2 rfl ⟨"default", "che"⟩ "" rfl rfl (by decide) (by decide)
  refine ⟨rfl, ?_, ?_⟩
  · rw [h]; decide
  · rw [h]; decide


/-- The resource `che` with `SingleHost` routing, each collaborator failing
in turn: not-found on load gives no error and no requeue; any other load
error, a gateway error and a syncer error are returned without requeue; an
error of the status write is returned with the requeue of a changed phase. -/
theorem Reconcile_error_witness :
    IsNotFound ⟨"NotFound", "not found"⟩ = true ∧
      (Reconcile kubernetesExternals
        (faultyWorld (some ⟨"NotFound", "not found"⟩) none none none)
        ⟨"default", "che"⟩ "").val = ({ Requeue := false }, none) ∧
      (Reconcile kubernetesExternals
        (faultyWorld (some ⟨"Conflict", "object has been modified"⟩) none none none)
        ⟨"default", "che"⟩ "").val =
          ({ Requeue := false }, some ⟨"Conflict", "object has been modified"⟩) ∧
      (Reconcile kubernetesExternals
        (faultyWorld none (some ⟨"Forbidden", "gateway"⟩) none none)
        ⟨"default", "che"⟩ "").val = ({ Requeue := false }, some ⟨"Forbidden", "gateway"⟩) ∧
      (Reconcile kubernetesExternals
        (faultyWorld none none (some ⟨"Invalid", "entry point"⟩) none)
        ⟨"default", "che"⟩ "").val = ({ Requeue := false }, some ⟨"Invalid", "entry point"⟩) ∧
      (Reconcile kubernetesExternals
        (faultyWorld none none none (some ⟨"Conflict", "status"⟩))
        ⟨"default", "che"⟩ "").val = ({ Requeue := true }, some ⟨"Conflict", "status"⟩) :=
  ⟨by decide,
    by rw [(Reconcile_error kubernetesExternals
        (faultyWorld (some ⟨"NotFound", "not found"⟩) none none none)
        ⟨"default", "che"⟩ "").2.2.2.2.1 ⟨"NotFound", "not found"⟩ "" rfl (by decide)],
    ((Reconcile_error kubernetesExternals
        (faultyWorld (some ⟨"Conflict", "object has been modified"⟩) none none none)
        ⟨"default", "che"⟩ "").1).trans (by decide),
    ((Reconcile_error kubernetesExternals
        (faultyWorld none (some ⟨"Forbidden", "gateway"⟩) none none)
        ⟨"default", "che"⟩ "").1).trans (by decide),
    ((Reconcile_error kubernetesExternals
        (faultyWorld none none (some ⟨"Invalid", "entry point"⟩) none)
        ⟨"default", "che"⟩ "").1).trans (by decide),
    ((Reconcile_error kubernetesExternals
        (faultyWorld none none none (some ⟨"Conflict", "status"⟩))
        ⟨"default", "che"⟩ "").1).trans (by decide)⟩

/-- Every round of `ReconcileN` is `Reconcile` at the round's start state. -/
theorem ReconcileN_mem {σ : Type} (x : Externals) (c : Collaborators σ)
    (req : NamespacedName) (n : Nat) (s : σ) (p : σ × Outcome σ (Result × Option GoError))
    (hp : p ∈ ReconcileN x c req n s) : p.2 = Reconcile x c req p.1 := by
  induction n generalizing s with
  | zero => simp [ReconcileN] at hp
  | succ k ih =>
    simp only [ReconcileN, List.mem_cons] at hp
    rcases hp with h | h
    · rw [h]
    · exact ih _ h

/-- The number of rounds of `ReconcileN`. -/
theorem ReconcileN_length {σ : Type} (x : Externals) (c : Collaborators σ)
    (req : NamespacedName) (n : Nat) (s : σ) : (ReconcileN x c req n s).length = n := by
  induction n generalizing s with
  | zero => rfl
  | succ k ih => simp [ReconcileN, ih]

/-- One successful `Reconcile` of a loaded resource without deletion marker
whose routing is neither constant: requeue, no error, and the calls are the
load, the gateway's delete, the syncer's delete of the entry point and, when
the previous phase was not `Initializing`, the status write of
`Initializing`. -/
theorem Reconcile_of_unknown_routing {σ : Type} (x : Externals) (c : Collaborators σ)
    (req : NamespacedName) (s s1 : σ) (m : CheManager)
    (hget : c.clientGet req s = (.ok m, s1))
    (h1 : m.Spec.Routing ≠ SingleHost) (h2 : m.Spec.Routing ≠ MultiHost)
    (hd : m.ObjectMeta.DeletionTimestamp = none)
    (hok : (Reconcile x c req s).val.2 = none) :
    Reconcile x c req s =
      { val := ({ Requeue := true }, none)
        state :=
          if m.Status.GatewayPhase ≠ GatewayPhaseInitializing then
            (c.statusUpdate (m.setGatewayPhase GatewayPhaseInitializing)
              (c.syncerDelete (entryPointObject x m) (c.gatewayDelete m s1).2).2).2
          else (c.syncerDelete (entryPointObject x m) (c.gatewayDelete m s1).2).2
        calls :=
          [⟨.clientGet req, none⟩, ⟨.gatewayDelete m, none⟩,
            ⟨.syncerDelete (entryPointObject x m), none⟩] ++
          if m.Status.GatewayPhase ≠ GatewayPhaseInitializing then
            [⟨.statusUpdate (m.setGatewayPhase GatewayPhaseInitializing), none⟩]
          else [] } := by
  have hd' : m.ObjectMeta.DeletionTimestamp.isSome = false := by rw [hd]; rfl
  obtain ⟨hgv, hgs, hgc⟩ := reconcileGateway_result c m s1
  rw [if_neg h1] at hgv hgs hgc
  have hok' := hok
  rw [Reconcile_val, hget] at hok'
  simp only [hd', Bool.false_eq_true, if_false] at hok'
  have hg : (reconcileGateway c m s1).val.2 = none := by
    cases h : (reconcileGateway c m s1).val.2 with
    | none => rfl
    | some err => rw [h] at hok'; simp at hok'
  rw [hg] at hok'
  simp only at hok'
  obtain ⟨hev, hes, hec⟩ := reconcileEntryPoint_result x c m (reconcileGateway c m s1).state
  rw [if_neg h1] at hev hes hec
  have he : (reconcileEntryPoint x c m (reconcileGateway c m s1).state).val.2 = none := by
    cases h : (reconcileEntryPoint x c m (reconcileGateway c m s1).state).val.2 with
    | none => rfl
    | some err => rw [h] at hok'; simp at hok'
  rw [he] at hok'
  simp only at hok'
  have hg1 : (reconcileGateway c m s1).val.1 = true := by rw [hgv]
  have he1 : (reconcileEntryPoint x c m (reconcileGateway c m s1).state).val.1 = true := by
    rw [hev]
  rw [hg1, he1] at hok'
  rw [Reconcile_of_reconciled x c req s s1 m hget hd' hg he, hg1, he1, hgc, hec, hg, he, hes, hgs]
  simp only [Bool.or_true]
  rw [hes, hgs] at hok'
  generalize (c.syncerDelete (entryPointObject x m) (c.gatewayDelete m s1).2).2 = s3 at hok' ⊢
  have hok3 : (updateStatus c m true s3).val.err = none := by simpa using hok'
  have hman : (updateStatus c m true s3).val.manager =
      m.setGatewayPhase GatewayPhaseInitializing := by
    rw [updateStatus_manager, if_neg h2]; rfl
  have hph : (updateStatus c m true s3).val.manager.Status.GatewayPhase =
      GatewayPhaseInitializing := by rw [hman]; rfl
  have hrq := updateStatus_result_requeue c m true s3
  have herr := updateStatus_err c m true s3
  have hcalls := updateStatus_calls c m true s3
  have hst := updateStatus_state c m true s3
  have hset : (m.setGatewayPhase GatewayPhaseInitializing).Status.GatewayPhase =
      GatewayPhaseInitializing := rfl
  simp only [hph, hman, hset] at herr hcalls hrq hst
  have hres : (updateStatus c m true s3).val.result = { Requeue := true } := by
    cases hr : (updateStatus c m true s3).val.result with
    | mk r =>
      rw [hr] at hrq
      simp only at hrq
      rw [hrq]
      by_cases hp : m.Status.GatewayPhase ≠ GatewayPhaseInitializing
      · rw [if_pos hp]
      · rw [if_neg hp]
        have hp' : m.Status.GatewayPhase = GatewayPhaseInitializing := not_not.mp hp
        simp [hp']
  rw [hres, hok3, hst, hcalls]
  by_cases hp : m.Status.GatewayPhase ≠ GatewayPhaseInitializing
  · rw [if_pos hp] at herr
    have hsu : (c.statusUpdate (m.setGatewayPhase GatewayPhaseInitializing) s3).1 = none := by
      rw [← herr]; exact hok3
    simp only [if_pos hp, hsu]
    rfl
  · simp only [if_neg hp]
    rfl

/-- C10, as stated, fails: a resource with the empty routing that carries a
deletion marker is reconciled successfully without a requeue, without any
call but the load, and its phase stays as it was, here empty. -/
theorem Reconcile_unknown_routing_finalizing :
    ("" : CheManagerRouting) ≠ SingleHost ∧ ("" : CheManagerRouting) ≠ MultiHost ∧
      (Reconcile kubernetesExternals (finalizingWorld "") ⟨"default", "che"⟩ "").val =
        ({ Requeue := false }, none) ∧
      (Reconcile kubernetesExternals (finalizingWorld "") ⟨"default", "che"⟩ "").calls.length =
        1 ∧
      (Reconcile kubernetesExternals (finalizingWorld "") ⟨"default", "che"⟩ "").state = "" ∧
      ¬ (Reconcile kubernetesExternals (finalizingWorld "") ⟨"default", "che"⟩ "").state =
        GatewayPhaseInitializing := by
  decide

/-- C10, amended: for a routing value that is neither `SingleHost` nor
`MultiHost` the gateway and entry-point reconciles take the delete branch
and report a change, while `updateStatus` takes the branch of a routing
other than `MultiHost`, so after a change it stores `Initializing` and
requeues whatever the previous phase. In any number of `Reconcile`s in a
row that each load such a resource and return no error, a round whose
resource carries no deletion marker returns requeue and calls exactly the
load, the gateway's `Delete`, the syncer's `Delete` of the entry point and,
unless the phase was `Initializing` already, the status write of
`Initializing`; a round whose resource carries a deletion marker returns no
requeue and calls only the load; no round writes another phase. -/
theorem Reconcile_unknown_routing {σ : Type} (x : Externals) (c : Collaborators σ)
    (req : NamespacedName) (n : Nat) (s : σ)
    (hrounds : ∀ p ∈ ReconcileN x c req n s,
      p.2.val.2 = none ∧
      ∃ m s1, c.clientGet req p.1 = (.ok m, s1) ∧
        m.Spec.Routing ≠ SingleHost ∧ m.Spec.Routing ≠ MultiHost) :
    (∀ (m : CheManager) (t : σ), m.Spec.Routing ≠ SingleHost → m.Spec.Routing ≠ MultiHost →
      reconcileGateway c m t =
        { val := (true, (c.gatewayDelete m t).1), state := (c.gatewayDelete m t).2,
          calls := [⟨.gatewayDelete m, (c.gatewayDelete m t).1⟩] } ∧
      reconcileRoute x c m t =
        { val := (true, (c.syncerDelete (.route (getRouteSpec x m)) t).1),
          state := (c.syncerDelete (.route (getRouteSpec x m)) t).2,
          calls := [⟨.syncerDelete (.route (getRouteSpec x m)),
            (c.syncerDelete (.route (getRouteSpec x m)) t).1⟩] } ∧
      reconcileIngress x c m t =
        { val := (true, (c.syncerDelete (.ingress (getIngressSpec x m)) t).1),
          state := (c.syncerDelete (.ingress (getIngressSpec x m)) t).2,
          calls := [⟨.syncerDelete (.ingress (getIngressSpec x m)),
            (c.syncerDelete (.ingress (getIngressSpec x m)) t).1⟩] } ∧
      reconcileEntryPoint x c m t =
        (if x.OpenShift then reconcileRoute x c m t else reconcileIngress x c m t) ∧
      entryPointObject x m =
        (if x.OpenShift then .route (getRouteSpec x m) else .ingress (getIngressSpec x m)) ∧
      (updateStatus c m true t).val.manager = m.setGatewayPhase GatewayPhaseInitializing ∧
      (updateStatus c m true t).val.result.Requeue = true ∧
      (updateStatus c m false t).val.manager = m.setGatewayPhase GatewayPhaseEstablished) ∧
    GatewayPhaseInitializing ≠ GatewayPhaseInactive ∧
    GatewayPhaseInitializing ≠ GatewayPhaseEstablished ∧
    (ReconcileN x c req n s).length = n ∧
    (∀ (k : Nat) (t : σ), ReconcileN x c req (k + 1) t =
      (t, Reconcile x c req t) :: ReconcileN x c req k (Reconcile x c req t).state) ∧
    (∀ p ∈ ReconcileN x c req n s,
      p.2 = Reconcile x c req p.1 ∧
      ∃ m s1, c.clientGet req p.1 = (.ok m, s1) ∧
        (m.ObjectMeta.DeletionTimestamp = none →
          p.2 =
            { val := ({ Requeue := true }, none)
              state :=
                if m.Status.GatewayPhase ≠ GatewayPhaseInitializing then
                  (c.statusUpdate (m.setGatewayPhase GatewayPhaseInitializing)
                    (c.syncerDelete (entryPointObject x m) (c.gatewayDelete m s1).2).2).2
                else (c.syncerDelete (entryPointObject x m) (c.gatewayDelete m s1).2).2
              calls :=
                [⟨.clientGet req, none⟩, ⟨.gatewayDelete m, none⟩,
                  ⟨.syncerDelete (entryPointObject x m), none⟩] ++
                if m.Status.GatewayPhase ≠ GatewayPhaseInitializing then
                  [⟨.statusUpdate (m.setGatewayPhase GatewayPhaseInitializing), none⟩]
                else [] }) ∧
        (m.ObjectMeta.DeletionTimestamp ≠ none →
          p.2 = { val := ({ Requeue := false }, none), state := s1,
                  calls := [⟨.clientGet req, none⟩] }) ∧
        (∀ call ∈ p.2.calls, ∀ m', call.op = .statusUpdate m' →
          m'.Status.GatewayPhase = GatewayPhaseInitializing)) := by
  refine ⟨?_, by decide, by decide, ReconcileN_length x c req n s, fun _ _ => rfl, ?_⟩
  · intro m t h1 h2
    have hphase : ∀ changed, (updateStatus c m changed t).val.manager =
        m.setGatewayPhase
          (if changed = true then GatewayPhaseInitializing else GatewayPhaseEstablished) := by
      intro changed
      rw [updateStatus_manager, if_neg h2]
    refine ⟨?_, ?_, ?_, rfl, rfl, ?_, ?_, ?_⟩
    · unfold reconcileGateway; rw [if_neg h1]
    · unfold reconcileRoute; simp only [if_neg h1]
    · unfold reconcileIngress; simp only [if_neg h1]
    · rw [hphase]; rfl
    · rw [updateStatus_result_requeue, hphase]
      have hset : (m.setGatewayPhase (if true = true then GatewayPhaseInitializing
          else GatewayPhaseEstablished)).Status.GatewayPhase = GatewayPhaseInitializing := rfl
      rw [hset]
      by_cases hp : m.Status.GatewayPhase ≠ GatewayPhaseInitializing
      · rw [if_pos hp]
      · rw [if_neg hp]
        have hp' : m.Status.GatewayPhase = GatewayPhaseInitializing := not_not.mp hp
        simp [hp']
    · rw [hphase]; rfl
  · intro p hp
    have heq := ReconcileN_mem x c req n s p hp
    obtain ⟨hok, m, s1, hget, h1, h2⟩ := hrounds p hp
    rw [heq] at hok
    refine ⟨heq, m, s1, hget, ?_, ?_, ?_⟩
    · intro hd
      rw [heq]
      exact Reconcile_of_unknown_routing x c req p.1 s1 m hget h1 h2 hd hok
    · intro hd
      rw [heq]
      refine Reconcile_of_deleted x c req p.1 s1 m hget ?_
      cases h : m.ObjectMeta.DeletionTimestamp with
      | none => exact absurd h hd
      | some t => rfl
    · intro call hcall m' hop
      rw [heq] at hcall
      cases h : m.ObjectMeta.DeletionTimestamp with
      | some t =>
        rw [Reconcile_of_deleted x c req p.1 s1 m hget (by rw [h]; rfl)] at hcall
        simp only [List.mem_singleton] at hcall
        rw [hcall] at hop
        simp only [reduceCtorEq] at hop
      | none =>
        rw [Reconcile_of_unknown_routing x c req p.1 s1 m hget h1 h2 h hok] at hcall
        simp only [List.mem_append, List.mem_cons, List.mem_singleton, List.not_mem_nil,
          or_false] at hcall
        rcases hcall with (hc | hc | hc) | hc
        · rw [hc] at hop; simp only [reduceCtorEq] at hop
        · rw [hc] at hop; simp only [reduceCtorEq] at hop
        · rw [hc] at hop; simp only [reduceCtorEq] at hop
        · by_cases hph : m.Status.GatewayPhase ≠ GatewayPhaseInitializing
          · rw [if_pos hph] at hc
            simp only [List.mem_singleton] at hc
            rw [hc] at hop
            simp only [Op.statusUpdate.injEq] at hop
            rw [← hop]
            rfl
          · rw [if_neg hph] at hc
            simp at hc

/-- The resource `che` with the empty routing, reconciled three times in a
row starting from the empty phase: every round requeues without error and
the phase stored after each is `Initializing`. -/
theorem Reconcile_unknown_routing_witness :
    ("" : CheManagerRouting) ≠ SingleHost ∧ ("" : CheManagerRouting) ≠ MultiHost ∧
      (∀ p ∈ ReconcileN kubernetesExternals (cheWorld "" false) ⟨"default", "che"⟩ 3 "",
        p.2.val = ({ Requeue := true }, none)) ∧
      (ReconcileN kubernetesExternals (cheWorld "" false) ⟨"default", "che"⟩ 3 "").map
        (fun p => (p.1, p.2.state, p.2.calls.length)) =
        [("", GatewayPhaseInitializing, 4), (GatewayPhaseInitializing, GatewayPhaseInitializing, 3),
          (GatewayPhaseInitializing, GatewayPhaseInitializing, 3)] := by
  have hrounds : ∀ p ∈ ReconcileN kubernetesExternals (cheWorld "" false) ⟨"default", "che"⟩ 3 "",
      p.2.val.2 = none ∧
      ∃ m s1, (cheWorld "" false).clientGet ⟨"default", "che"⟩ p.1 = (.ok m, s1) ∧
        m.Spec.Routing ≠ SingleHost ∧ m.Spec.Routing ≠ MultiHost := by
    intro p hp
    simp only [ReconcileN, List.mem_cons, List.mem_singleton, List.not_mem_nil, or_false] at hp
    rcases hp with h | h | h <;> rw [h] <;>
      exact ⟨by decide, ⟨_, _, rfl, by decide, by decide⟩⟩
  refine ⟨by decide, by decide, ?_, by decide⟩
  intro p hp
  obtain ⟨-, m, s1, hget, hnone, -, -⟩ :=
    (Reconcile_unknown_routing kubernetesExternals (cheWorld "" false) ⟨"default", "che"⟩ 3 ""
      hrounds).2.2.2.2.2 p hp
  have hm : m.ObjectMeta.DeletionTimestamp = none := by
    simp only [cheWorld, Prod.mk.injEq, Except.ok.injEq] at hget
    rw [← hget.1]
    rfl
  rw [hnone hm]

/-! ## The backing store, the syncer and the gateway -/

/-- Filtering keeps a lookup that found nothing empty. -/
theorem find?_filter_of_none {α : Type} (p q : α → Bool) (l : List α)
    (h : l.find? p = none) : (l.filter q).find? p = none := by
  rw [List.find?_eq_none] at h ⊢
  intro a ha
  exact h a (List.mem_filter.mp ha).1

/-- Nothing that was filtered out is found. -/
theorem find?_filter_not {α : Type} (p : α → Bool) (l : List α) :
    (l.filter fun a => !p a).find? p = none := by
  rw [List.find?_eq_none]
  intro a ha
  have h := (List.mem_filter.mp ha).2
  simpa using h

/-- The objects the store holds after a delete. -/
theorem Store.Delete_objects (st : Store) (kind : Kind) (key : NamespacedName) :
    (st.Delete kind key).2.objects = st.objects.filter (fun o => !o.is kind key) := by
  unfold Store.Delete
  simp only []
  cases h : (st.logged ⟨.Delete, kind, key⟩).find? kind key with
  | none =>
    have h' : st.objects.find? (Object.is kind key) = none := h
    rw [List.find?_eq_none] at h'
    show st.objects = _
    symm
    rw [List.filter_eq_self]
    intro a ha
    simpa using h' a ha
  | some o => rfl

/-- A delete of the store fails with not-found or not at all. -/
theorem Store.Delete_err (st : Store) (kind : Kind) (key : NamespacedName) :
    (st.Delete kind key).1 = none ∨ (st.Delete kind key).1 = some ⟨"NotFound", "not found"⟩ := by
  unfold Store.Delete
  simp only []
  cases (st.logged ⟨.Delete, kind, key⟩).find? kind key with
  | none => exact Or.inr rfl
  | some o => exact Or.inl rfl

/-- The syncer's delete never fails on the store and leaves nothing of the
object's kind and identity. -/
theorem Syncer.Delete_spec (obj : Object) (st : Store) :
    (Syncer.Delete obj st).1 = none ∧
      (Syncer.Delete obj st).2.objects =
        st.objects.filter (fun o => !o.is obj.kind obj.key) := by
  have hobj := Store.Delete_objects st obj.kind obj.key
  unfold Syncer.Delete
  simp only []
  rcases Store.Delete_err st obj.kind obj.key with h | h
  · rw [h]; exact ⟨rfl, hobj⟩
  · rw [h]
    have hnf : IsNotFound ⟨"NotFound", "not found"⟩ = true := by decide
    simp only [hnf, if_true]
    exact ⟨trivial, hobj⟩

/-- Deleting the kinds `ks` of the bundle: no error, nothing appears, and
nothing of these kinds is left under the resource's identity. -/
theorem CheGateway.deleteAll_spec (x : Externals) (manager : CheManager)
    (ks : List BundleKind) (st : Store) :
    (CheGateway.deleteAll x manager ks st).1 = none ∧
      (∀ kind key, st.find? kind key = none →
        (CheGateway.deleteAll x manager ks st).2.find? kind key = none) ∧
      (∀ k ∈ ks, (CheGateway.deleteAll x manager ks st).2.find? (.Bundle k)
        ⟨manager.ObjectMeta.Namespace, manager.ObjectMeta.Name⟩ = none) := by
  induction ks generalizing st with
  | nil => exact ⟨rfl, fun _ _ h => h, fun k hk => by simp at hk⟩
  | cons k rest ih =>
    obtain ⟨herr, hobj⟩ :=
      Syncer.Delete_spec (.bundle (getGatewayObject x manager k)) st
    have hstep : CheGateway.deleteAll x manager (k :: rest) st =
        CheGateway.deleteAll x manager rest
          (Syncer.Delete (.bundle (getGatewayObject x manager k)) st).2 := by
      rw [CheGateway.deleteAll]
      simp only [herr]
    rw [hstep]
    obtain ⟨ih1, ih2, ih3⟩ :=
      ih (Syncer.Delete (.bundle (getGatewayObject x manager k)) st).2
    refine ⟨ih1, ?_, ?_⟩
    · intro kind key h
      apply ih2
      unfold Store.find?
      rw [hobj]
      exact find?_filter_of_none _ _ _ h
    · intro k' hk'
      rcases List.mem_cons.mp hk' with h | h
      · subst h
        apply ih2
        unfold Store.find?
        rw [hobj]
        exact find?_filter_not _ _
      · exact ih3 k' h

/-- C8: on every store `CheGateway.Delete` returns no error, afterwards the
lookup of each of the six kinds under the resource's name and namespace
reports not-found, and a second `Delete` returns no error either. -/
theorem CheGateway_Delete_teardown (x : Externals) (manager : CheManager) (st : Store) :
    (CheGateway.Delete x manager st).1 = none ∧
      (∀ k : BundleKind, ∃ err,
        (CheGateway.Delete x manager st).2.Get (.Bundle k)
          ⟨manager.ObjectMeta.Namespace, manager.ObjectMeta.Name⟩ = .error err ∧
        IsNotFound err = true) ∧
      (CheGateway.Delete x manager (CheGateway.Delete x manager st).2).1 = none := by
  obtain ⟨h1, -, h3⟩ := CheGateway.deleteAll_spec x manager bundleKinds st
  refine ⟨h1, ?_, (CheGateway.deleteAll_spec x manager bundleKinds _).1⟩
  intro k
  have hk : k ∈ bundleKinds := by cases k <;> simp [bundleKinds]
  refine ⟨⟨"NotFound", "not found"⟩, ?_, by decide⟩
  unfold Store.Get CheGateway.Delete
  rw [h3 k hk]

/-- The desired object of a bundle kind as the syncer creates it. -/
theorem created_bundle_is (x : Externals) (manager : CheManager) (k k' : BundleKind) :
    Object.is (.Bundle k') ⟨manager.ObjectMeta.Namespace, manager.ObjectMeta.Name⟩
      ((Object.bundle (getGatewayObject x manager k)).withOwner manager) = decide (k = k') := by
  simp [Object.is, Object.kind, Object.key, Object.objectMeta, Object.withOwner,
    getGatewayObject]

/-- Setting the owner changes neither the kind nor the identity. -/
theorem Object.withOwner_kind_key (owner : CheManager) (o : Object) :
    (o.withOwner owner).kind = o.kind ∧ (o.withOwner owner).key = o.key := by
  cases o <;> exact ⟨rfl, rfl⟩

/-- The syncer's `Sync` of an object the store does not hold: one create. -/
theorem Syncer.Sync_of_absent (owner : CheManager) (desired : Object) (opts : Options)
    (st : Store) (h : st.find? desired.kind desired.key = none) :
    Syncer.Sync owner desired opts st =
      ((true, none),
        { objects := st.objects ++ [desired.withOwner owner]
          writes := st.writes ++ [⟨.Create, desired.kind, desired.key⟩] }) := by
  obtain ⟨hk, hkey⟩ := Object.withOwner_kind_key owner desired
  have hnf : IsNotFound ⟨"NotFound", "not found"⟩ = true := by decide
  have hc : st.Create (desired.withOwner owner) =
      (none, { objects := st.objects ++ [desired.withOwner owner]
               writes := st.writes ++ [⟨.Create, desired.kind, desired.key⟩] }) := by
    unfold Store.Create
    simp only [hk, hkey]
    have h' : (st.logged ⟨.Create, desired.kind, desired.key⟩).find? desired.kind desired.key =
        none := h
    rw [h']
    rfl
  unfold Syncer.Sync Store.Get
  rw [h]
  simp only [hnf, if_true, hc]

/-- Synchronizing kinds of the bundle of which the store holds none: every
one is created, in order, and a change is reported if there was any kind. -/
theorem CheGateway.syncAll_fresh (x : Externals) (manager : CheManager)
    (ks : List BundleKind) (hnd : ks.Nodup) (changed : Bool) (st : Store)
    (hfresh : ∀ k ∈ ks, st.find? (.Bundle k)
      ⟨manager.ObjectMeta.Namespace, manager.ObjectMeta.Name⟩ = none) :
    CheGateway.syncAll x manager ks changed st =
      ((changed || !ks.isEmpty, none),
        { objects := st.objects ++
            ks.map (fun k => (Object.bundle (getGatewayObject x manager k)).withOwner manager)
          writes := st.writes ++
            ks.map (fun k => ⟨.Create, .Bundle k,
              ⟨manager.ObjectMeta.Namespace, manager.ObjectMeta.Name⟩⟩) }) := by
  induction ks generalizing changed st with
  | nil => simp [CheGateway.syncAll]
  | cons k rest ih =>
    have hk := hfresh k (List.mem_cons_self _ _)
    have hsync := Syncer.Sync_of_absent manager (.bundle (getGatewayObject x manager k))
      (gatewayDiffOpts k) st hk
    rw [CheGateway.syncAll]
    simp only [hsync]
    rw [ih (List.nodup_cons.mp hnd).2]
    · simp [Object.kind, Object.key, Object.objectMeta, getGatewayObject]
    · intro k' hk'
      have hne : k ≠ k' := by
        intro h
        subst h
        exact (List.nodup_cons.mp hnd).1 hk'
      have hold := hfresh k' (List.mem_cons_of_mem _ hk')
      unfold Store.find? at hold ⊢
      simp only [List.find?_append, hold, Option.none_or, List.find?_cons,
        created_bundle_is, List.find?_nil]
      simp [hne]

/-- Among the created objects of a list of kinds, the one of a kind in the
list is found under the resource's identity. -/
theorem find?_created_bundle (x : Externals) (manager : CheManager) (ks : List BundleKind)
    (k : BundleKind) (hk : k ∈ ks) :
    (ks.map (fun k => (Object.bundle (getGatewayObject x manager k)).withOwner manager)).find?
        (Object.is (.Bundle k) ⟨manager.ObjectMeta.Namespace, manager.ObjectMeta.Name⟩) =
      some ((Object.bundle (getGatewayObject x manager k)).withOwner manager) := by
  induction ks with
  | nil => simp at hk
  | cons k0 rest ih =>
    simp only [List.map_cons, List.find?_cons, created_bundle_is]
    by_cases h : k0 = k
    · subst h; simp
    · simp only [h, decide_False]
      rcases List.mem_cons.mp hk with h' | h'
      · exact absurd h'.symm h
      · exact ih h'

/-- C7: for a resource with `SingleHost` routing and a store that holds none
of its bundle objects, `CheGateway.Sync` returns without error, reporting a
change, and afterwards the store returns, for each of the six kinds, an
object of that kind under the resource's name and namespace that carries
that name and namespace. The engine does not read the routing. -/
theorem CheGateway_Sync_complete (x : Externals) (manager : CheManager) (st : Store)
    (_hr : manager.Spec.Routing = SingleHost)
    (hfresh : ∀ k : BundleKind, st.has (.Bundle k)
      ⟨manager.ObjectMeta.Namespace, manager.ObjectMeta.Name⟩ = false) :
    (CheGateway.Sync x manager st).1 = (true, none) ∧
      ∀ k : BundleKind, ∃ b : BundleObject,
        (CheGateway.Sync x manager st).2.Get (.Bundle k)
          ⟨manager.ObjectMeta.Namespace, manager.ObjectMeta.Name⟩ = .ok (.bundle b) ∧
        b.kind = k ∧ b.ObjectMeta.Name = manager.ObjectMeta.Name ∧
        b.ObjectMeta.Namespace = manager.ObjectMeta.Namespace := by
  have hfresh' : ∀ k ∈ bundleKinds, st.find? (.Bundle k)
      ⟨manager.ObjectMeta.Namespace, manager.ObjectMeta.Name⟩ = none := by
    intro k _
    have h := hfresh k
    unfold Store.has at h
    simpa using h
  have hnd : bundleKinds.Nodup := by decide
  have hsync := CheGateway.syncAll_fresh x manager bundleKinds hnd false st hfresh'
  unfold CheGateway.Sync
  rw [hsync]
  refine ⟨rfl, ?_⟩
  intro k
  have hk : k ∈ bundleKinds := by cases k <;> simp [bundleKinds]
  refine ⟨{ getGatewayObject x manager k with
    ObjectMeta := { (getGatewayObject x manager k).ObjectMeta with
      OwnerReferences := [⟨"CheManager", manager.ObjectMeta.Name⟩] } }, ?_, rfl, rfl, rfl⟩
  have hold := hfresh' k hk
  unfold Store.find? at hold
  unfold Store.Get Store.find?
  simp only [List.find?_append, hold, Option.none_or, find?_created_bundle x manager _ k hk]
  rfl

/-- The resource `che` of the tests and a store that holds only it: all six
objects are there after `CheGateway.Sync`. -/
theorem CheGateway_Sync_complete_witness :
    (cheResource SingleHost "").Spec.Routing = SingleHost ∧
      (CheGateway.Sync kubernetesExternals (cheResource SingleHost "")
        (storeOf (cheResource SingleHost ""))).1 = (true, none) ∧
      bundleKinds.all (fun k =>
        (CheGateway.Sync kubernetesExternals (cheResource SingleHost "")
          (storeOf (cheResource SingleHost ""))).2.has (.Bundle k) ⟨"default", "che"⟩) = true :=
  ⟨rfl,
    (CheGateway_Sync_complete kubernetesExternals (cheResource SingleHost "")
      (storeOf (cheResource SingleHost "")) rfl (by intro k; cases k <;> rfl)).1,
    by decide⟩

/-! ## Diff masking -/

/-- Two structs compare by type name and fields. -/
theorem cmpEqual_struct (opts : Options) (ta tb : String) (fa fb : List (String × Value)) :
    cmpEqual opts (.struct ta fa) (.struct tb fb) = (ta == tb && cmpFields opts ta fa fb) := by
  rw [cmpEqual]

/-- Two non-empty field lists compare by the first fields and the rest. -/
theorem cmpFields_cons (opts : Options) (typ na nb : String) (va vb : Value)
    (ra rb : List (String × Value)) :
    cmpFields opts typ ((na, va) :: ra) ((nb, vb) :: rb) =
      (na == nb && (ignored opts typ na || cmpEqual opts va vb) && cmpFields opts typ ra rb) := by
  rw [cmpFields]

/-- Two empty field lists are equal. -/
theorem cmpFields_nil (opts : Options) (typ : String) : cmpFields opts typ [] [] = true := by
  rw [cmpFields]

/-- Two strings compare by value. -/
theorem cmpEqual_str (opts : Options) (a b : String) :
    cmpEqual opts (.str a) (.str b) = true ↔ a = b := by
  simp [cmpEqual]

/-- Two integers compare by value. -/
theorem cmpEqual_int (opts : Options) (a b : Int) :
    cmpEqual opts (.int a) (.int b) = true ↔ a = b := by
  simp [cmpEqual]

/-- Two pointers compare as nil or by what they point to. -/
theorem cmpEqual_ptr {α : Type} (opts : Options) (f : α → Value)
    (hnull : ∀ a, cmpEqual opts .null (f a) = false ∧ cmpEqual opts (f a) .null = false)
    (hf : ∀ a b, cmpEqual opts (f a) (f b) = true ↔ a = b) (a b : Option α) :
    cmpEqual opts (ptrValue f a) (ptrValue f b) = true ↔ a = b := by
  cases a with
  | none =>
    cases b with
    | none => simp [ptrValue, cmpEqual]
    | some b => simp [ptrValue, (hnull b).1]
  | some a =>
    cases b with
    | none => simp [ptrValue, (hnull a).2]
    | some b => simp [ptrValue, hf]

/-- Two lists of encoded elements compare as the lists of elements. -/
theorem cmpList_map {α : Type} (opts : Options) (f : α → Value)
    (hf : ∀ a b, cmpEqual opts (f a) (f b) = true ↔ a = b) (xs ys : List α) :
    cmpList opts (xs.map f) (ys.map f) = true ↔ xs = ys := by
  induction xs generalizing ys with
  | nil => cases ys <;> simp [cmpList]
  | cons a xs ih => cases ys <;> simp [cmpList, hf, ih]

/-- Two slices compare as nil or element by element. -/
theorem cmpEqual_slice {α : Type} (opts : Options) (f : α → Value)
    (hf : ∀ a b, cmpEqual opts (f a) (f b) = true ↔ a = b) (a b : Slice α) :
    cmpEqual opts (sliceValue f a) (sliceValue f b) = true ↔ a = b := by
  cases a <;> cases b <;> simp [sliceValue, cmpEqual, cmpList_map opts f hf]

/-- The options `routeDiffOpts` ignore fields of `Route` and `RouteSpec` only. -/
theorem ignored_routeDiffOpts (t f : String) (h1 : t ≠ "Route") (h2 : t ≠ "RouteSpec") :
    ignored routeDiffOpts t f = false := by
  simp [ignored, routeDiffOpts, Ne.symm h1, Ne.symm h2]

/-- Two `IntOrString` compare by value. -/
theorem cmpEqual_IntOrString (opts : Options) (h : ∀ f, ignored opts "IntOrString" f = false)
    (a b : IntOrString) :
    cmpEqual opts a.toValue b.toValue = true ↔ a = b := by
  cases a <;> cases b <;>
    simp [IntOrString.toValue, cmpEqual_struct, cmpFields_cons, cmpFields_nil, cmpEqual_str,
      cmpEqual_int, h]

/-- Two route targets compare by value under `routeDiffOpts`. -/
theorem cmpEqual_RouteTargetReference (a b : RouteTargetReference) :
    cmpEqual routeDiffOpts a.toValue b.toValue = true ↔ a = b := by
  have hi : ∀ f, ignored routeDiffOpts "RouteTargetReference" f = false :=
    fun f => ignored_routeDiffOpts _ f (by decide) (by decide)
  cases a; cases b
  simp [RouteTargetReference.toValue, cmpEqual_struct, cmpFields_cons, cmpFields_nil,
    cmpEqual_str, hi,
    cmpEqual_ptr routeDiffOpts Value.int (fun _ => ⟨rfl, rfl⟩) (cmpEqual_int _)]

/-- Two route ports compare by value under `routeDiffOpts`. -/
theorem cmpEqual_RoutePort (a b : RoutePort) :
    cmpEqual routeDiffOpts a.toValue b.toValue = true ↔ a = b := by
  have hi : ∀ f, ignored routeDiffOpts "RoutePort" f = false :=
    fun f => ignored_routeDiffOpts _ f (by decide) (by decide)
  have hj : ∀ f, ignored routeDiffOpts "IntOrString" f = false :=
    fun f => ignored_routeDiffOpts _ f (by decide) (by decide)
  cases a; cases b
  simp [RoutePort.toValue, cmpEqual_struct, cmpFields_cons, cmpFields_nil, hi,
    cmpEqual_IntOrString routeDiffOpts hj]

/-- Two TLS configurations compare by value under `routeDiffOpts`. -/
theorem cmpEqual_TLSConfig (a b : TLSConfig) :
    cmpEqual routeDiffOpts a.toValue b.toValue = true ↔ a = b := by
  have hi : ∀ f, ignored routeDiffOpts "TLSConfig" f = false :=
    fun f => ignored_routeDiffOpts _ f (by decide) (by decide)
  cases a; cases b
  simp [TLSConfig.toValue, cmpEqual_struct, cmpFields_cons, cmpFields_nil, cmpEqual_str, hi]

/-- Two route specs compare by every field but `WildcardPolicy`. -/
theorem cmpEqual_RouteSpec (a b : RouteSpec) :
    cmpEqual routeDiffOpts a.toValue b.toValue = true ↔
      { a with WildcardPolicy := b.WildcardPolicy } = b := by
  have hi : ∀ f, f ≠ "WildcardPolicy" → ignored routeDiffOpts "RouteSpec" f = false := by
    intro f hf
    simp [ignored, routeDiffOpts, hf]
  have hw : ignored routeDiffOpts "RouteSpec" "WildcardPolicy" = true := by decide
  cases a; cases b
  simp [RouteSpec.toValue, cmpEqual_struct, cmpFields_cons, cmpFields_nil, cmpEqual_str, hi, hw,
    cmpEqual_RouteTargetReference,
    cmpEqual_slice routeDiffOpts _ cmpEqual_RouteTargetReference,
    cmpEqual_ptr routeDiffOpts RoutePort.toValue (fun _ => ⟨rfl, rfl⟩) cmpEqual_RoutePort,
    cmpEqual_ptr routeDiffOpts TLSConfig.toValue (fun _ => ⟨rfl, rfl⟩) cmpEqual_TLSConfig]

/-- Two routes compare by every spec field but `WildcardPolicy`. -/
theorem cmpEqual_Route (a b : Route) :
    cmpEqual routeDiffOpts a.toValue b.toValue = true ↔
      { a.Spec with WildcardPolicy := b.Spec.WildcardPolicy } = b.Spec := by
  have h1 : ignored routeDiffOpts "Route" "TypeMeta" = true := by decide
  have h2 : ignored routeDiffOpts "Route" "ObjectMeta" = true := by decide
  have h3 : ignored routeDiffOpts "Route" "Status" = true := by decide
  have h4 : ignored routeDiffOpts "Route" "Spec" = false := by decide
  rw [← cmpEqual_RouteSpec]
  simp [Route.toValue, cmpEqual_struct, cmpFields_cons, cmpFields_nil, h1, h2, h3, h4]

/-- The options `ingressDiffOpts` ignore fields of `Ingress` only. -/
theorem ignored_ingressDiffOpts (t f : String) (h : t ≠ "Ingress") :
    ignored ingressDiffOpts t f = false := by
  simp [ignored, ingressDiffOpts, Ne.symm h]

/-- Two object references compare by value under `ingressDiffOpts`. -/
theorem cmpEqual_TypedLocalObjectReference (a b : TypedLocalObjectReference) :
    cmpEqual ingressDiffOpts a.toValue b.toValue = true ↔ a = b := by
  have hi : ∀ f, ignored ingressDiffOpts "TypedLocalObjectReference" f = false :=
    fun f => ignored_ingressDiffOpts _ f (by decide)
  cases a; cases b
  simp [TypedLocalObjectReference.toValue, cmpEqual_struct, cmpFields_cons, cmpFields_nil,
    cmpEqual_str, hi,
    cmpEqual_ptr ingressDiffOpts Value.str (fun _ => ⟨rfl, rfl⟩) (cmpEqual_str _)]

/-- Two ingress backends compare by value under `ingressDiffOpts`. -/
theorem cmpEqual_IngressBackend (a b : IngressBackend) :
    cmpEqual ingressDiffOpts a.toValue b.toValue = true ↔ a = b := by
  have hi : ∀ f, ignored ingressDiffOpts "IngressBackend" f = false :=
    fun f => ignored_ingressDiffOpts _ f (by decide)
  have hj : ∀ f, ignored ingressDiffOpts "IntOrString" f = false :=
    fun f => ignored_ingressDiffOpts _ f (by decide)
  cases a; cases b
  simp [IngressBackend.toValue, cmpEqual_struct, cmpFields_cons, cmpFields_nil,
    cmpEqual_str, hi, cmpEqual_IntOrString ingressDiffOpts hj,
    cmpEqual_ptr ingressDiffOpts TypedLocalObjectReference.toValue (fun _ => ⟨rfl, rfl⟩)
      cmpEqual_TypedLocalObjectReference]

/-- Two ingress paths compare by value under `ingressDiffOpts`. -/
theorem cmpEqual_HTTPIngressPath (a b : HTTPIngressPath) :
    cmpEqual ingressDiffOpts a.toValue b.toValue = true ↔ a = b := by
  have hi : ∀ f, ignored ingressDiffOpts "HTTPIngressPath" f = false :=
    fun f => ignored_ingressDiffOpts _ f (by decide)
  cases a; cases b
  simp [HTTPIngressPath.toValue, cmpEqual_struct, cmpFields_cons, cmpFields_nil,
    cmpEqual_str, hi, cmpEqual_IngressBackend,
    cmpEqual_ptr ingressDiffOpts Value.str (fun _ => ⟨rfl, rfl⟩) (cmpEqual_str _)]

/-- Two HTTP rule values compare by value under `ingressDiffOpts`. -/
theorem cmpEqual_HTTPIngressRuleValue (a b : HTTPIngressRuleValue) :
    cmpEqual ingressDiffOpts a.toValue b.toValue = true ↔ a = b := by
  have hi : ∀ f, ignored ingressDiffOpts "HTTPIngressRuleValue" f = false :=
    fun f => ignored_ingressDiffOpts _ f (by decide)
  cases a; cases b
  simp [HTTPIngressRuleValue.toValue, cmpEqual_struct, cmpFields_cons, cmpFields_nil, hi,
    cmpEqual_slice ingressDiffOpts _ cmpEqual_HTTPIngressPath]

/-- Two rule values compare by value under `ingressDiffOpts`. -/
theorem cmpEqual_IngressRuleValue (a b : IngressRuleValue) :
    cmpEqual ingressDiffOpts a.toValue b.toValue = true ↔ a = b := by
  have hi : ∀ f, ignored ingressDiffOpts "IngressRuleValue" f = false :=
    fun f => ignored_ingressDiffOpts _ f (by decide)
  cases a; cases b
  simp [IngressRuleValue.toValue, cmpEqual_struct, cmpFields_cons, cmpFields_nil, hi,
    cmpEqual_ptr ingressDiffOpts HTTPIngressRuleValue.toValue (fun _ => ⟨rfl, rfl⟩)
      cmpEqual_HTTPIngressRuleValue]

/-- Two ingress rules compare by value under `ingressDiffOpts`. -/
theorem cmpEqual_IngressRule (a b : IngressRule) :
    cmpEqual ingressDiffOpts a.toValue b.toValue = true ↔ a = b := by
  have hi : ∀ f, ignored ingressDiffOpts "IngressRule" f = false :=
    fun f => ignored_ingressDiffOpts _ f (by decide)
  cases a; cases b
  simp [IngressRule.toValue, cmpEqual_struct, cmpFields_cons, cmpFields_nil, cmpEqual_str, hi,
    cmpEqual_IngressRuleValue]

/-- Two ingress TLS entries compare by value under `ingressDiffOpts`. -/
theorem cmpEqual_IngressTLS (a b : IngressTLS) :
    cmpEqual ingressDiffOpts a.toValue b.toValue = true ↔ a = b := by
  have hi : ∀ f, ignored ingressDiffOpts "IngressTLS" f = false :=
    fun f => ignored_ingressDiffOpts _ f (by decide)
  cases a; cases b
  simp [IngressTLS.toValue, cmpEqual_struct, cmpFields_cons, cmpFields_nil, cmpEqual_str, hi,
    cmpEqual_slice ingressDiffOpts Value.str (cmpEqual_str _)]

/-- Two ingress specs compare by value under `ingressDiffOpts`. -/
theorem cmpEqual_IngressSpec (a b : IngressSpec) :
    cmpEqual ingressDiffOpts a.toValue b.toValue = true ↔ a = b := by
  have hi : ∀ f, ignored ingressDiffOpts "IngressSpec" f = false :=
    fun f => ignored_ingressDiffOpts _ f (by decide)
  cases a; cases b
  simp [IngressSpec.toValue, cmpEqual_struct, cmpFields_cons, cmpFields_nil, hi,
    cmpEqual_ptr ingressDiffOpts Value.str (fun _ => ⟨rfl, rfl⟩) (cmpEqual_str _),
    cmpEqual_ptr ingressDiffOpts IngressBackend.toValue (fun _ => ⟨rfl, rfl⟩)
      cmpEqual_IngressBackend,
    cmpEqual_slice ingressDiffOpts _ cmpEqual_IngressTLS,
    cmpEqual_slice ingressDiffOpts _ cmpEqual_IngressRule]

/-- Two ingresses compare by their specs. -/
theorem cmpEqual_Ingress (a b : Ingress) :
    cmpEqual ingressDiffOpts a.toValue b.toValue = true ↔ a.Spec = b.Spec := by
  have h1 : ignored ingressDiffOpts "Ingress" "TypeMeta" = true := by decide
  have h2 : ignored ingressDiffOpts "Ingress" "ObjectMeta" = true := by decide
  have h3 : ignored ingressDiffOpts "Ingress" "Status" = true := by decide
  have h4 : ignored ingressDiffOpts "Ingress" "Spec" = false := by decide
  rw [← cmpEqual_IngressSpec]
  simp [Ingress.toValue, cmpEqual_struct, cmpFields_cons, cmpFields_nil, h1, h2, h3, h4]

/-- The syncer's `Sync` of an object the store holds and that shows no
difference: no change, no write. -/
theorem Syncer.Sync_of_equal (owner : CheManager) (desired current : Object) (opts : Options)
    (st : Store) (hget : st.Get desired.kind desired.key = .ok current)
    (heq : cmpEqual opts current.toValue desired.toValue = true) :
    Syncer.Sync owner desired opts st = ((false, none), st) := by
  unfold Syncer.Sync
  rw [hget]
  simp only [heq, if_true]

/-- The syncer's `Sync` of an object the store holds and that shows a
difference: one update, a change. -/
theorem Syncer.Sync_of_different (owner : CheManager) (desired current : Object)
    (opts : Options) (st : Store) (hget : st.Get desired.kind desired.key = .ok current)
    (hne : cmpEqual opts current.toValue desired.toValue = false) :
    (Syncer.Sync owner desired opts st).1 = (true, none) ∧
      Store.writesSince st (Syncer.Sync owner desired opts st).2 =
        [⟨.Update, desired.kind, desired.key⟩] := by
  have hfind : st.find? desired.kind desired.key = some current := by
    unfold Store.Get at hget
    cases h : st.find? desired.kind desired.key with
    | none => rw [h] at hget; simp at hget
    | some o => rw [h] at hget; simp only [Except.ok.injEq] at hget; rw [hget]
  have his : Object.is desired.kind desired.key current = true := List.find?_some hfind
  have hkind : current.kind = desired.kind := by
    simp only [Object.is, Bool.and_eq_true, decide_eq_true_eq] at his
    exact his.1
  have hkey : current.key = desired.key := by
    simp only [Object.is, Bool.and_eq_true, decide_eq_true_eq] at his
    exact his.2
  have hmk : (current.mergeOnto desired).kind = desired.kind ∧
      (current.mergeOnto desired).key = desired.key := by
    cases current <;> cases desired <;>
      first
      | exact ⟨rfl, rfl⟩
      | exact ⟨hkind, hkey⟩
  have hupd : ∃ objs, st.Update (current.mergeOnto desired) =
      (none, { objects := objs, writes := st.writes ++ [⟨.Update, desired.kind, desired.key⟩] }) := by
    unfold Store.Update
    simp only [hmk.1, hmk.2]
    have h' : (st.logged ⟨.Update, desired.kind, desired.key⟩).find? desired.kind desired.key =
        some current := hfind
    rw [h']
    exact ⟨_, rfl⟩
  obtain ⟨objs, hupd⟩ := hupd
  unfold Syncer.Sync
  rw [hget]
  simp only [hne, hupd]
  simp [Store.writesSince]


/-- C9: under `routeDiffOpts` two routes show no difference exactly when
their specs agree on every field other than `WildcardPolicy`, whatever their
`TypeMeta`, `ObjectMeta` and `Status`, and under `ingressDiffOpts` two
ingresses show no difference exactly when their specs are equal; a sync of
such a route or ingress over the stored one reports no change and leaves
the store, its log of writes included, as it was; routes whose hosts differ
show a difference, and their sync reports a change and issues one update. -/
theorem diff_masking (owner : CheManager) (st : Store) (current desired : Route)
    (currentIngress desiredIngress : Ingress) :
    (cmpEqual routeDiffOpts current.toValue desired.toValue = true ↔
        { current.Spec with WildcardPolicy := desired.Spec.WildcardPolicy } = desired.Spec) ∧
      (cmpEqual ingressDiffOpts currentIngress.toValue desiredIngress.toValue = true ↔
        currentIngress.Spec = desiredIngress.Spec) ∧
      ({ current.Spec with WildcardPolicy := desired.Spec.WildcardPolicy } = desired.Spec →
        st.Get .Route ⟨desired.ObjectMeta.Namespace, desired.ObjectMeta.Name⟩ =
          .ok (.route current) →
        Syncer.Sync owner (.route desired) routeDiffOpts st = ((false, none), st)) ∧
      (currentIngress.Spec = desiredIngress.Spec →
        st.Get .Ingress ⟨desiredIngress.ObjectMeta.Namespace, desiredIngress.ObjectMeta.Name⟩ =
          .ok (.ingress currentIngress) →
        Syncer.Sync owner (.ingress desiredIngress) ingressDiffOpts st = ((false, none), st)) ∧
      (current.Spec.Host ≠ desired.Spec.Host →
        cmpEqual routeDiffOpts current.toValue desired.toValue = false ∧
        (st.Get .Route ⟨desired.ObjectMeta.Namespace, desired.ObjectMeta.Name⟩ =
            .ok (.route current) →
          (Syncer.Sync owner (.route desired) routeDiffOpts st).1 = (true, none) ∧
          Store.writesSince st (Syncer.Sync owner (.route desired) routeDiffOpts st).2 =
            [⟨.Update, .Route, ⟨desired.ObjectMeta.Namespace, desired.ObjectMeta.Name⟩⟩])) := by
  refine ⟨cmpEqual_Route current desired, cmpEqual_Ingress currentIngress desiredIngress,
    ?_, ?_, ?_⟩
  · intro hspec hget
    exact Syncer.Sync_of_equal owner (.route desired) (.route current) routeDiffOpts st hget
      ((cmpEqual_Route current desired).mpr hspec)
  · intro hspec hget
    exact Syncer.Sync_of_equal owner (.ingress desiredIngress) (.ingress currentIngress)
      ingressDiffOpts st hget ((cmpEqual_Ingress currentIngress desiredIngress).mpr hspec)
  · intro hhost
    have hne : cmpEqual routeDiffOpts current.toValue desired.toValue = false := by
      cases h : cmpEqual routeDiffOpts current.toValue desired.toValue with
      | false => rfl
      | true =>
        have hspec := (cmpEqual_Route current desired).mp h
        exact absurd (congrArg RouteSpec.Host hspec) hhost
    refine ⟨hne, ?_⟩
    intro hget
    exact Syncer.Sync_of_different owner (.route desired) (.route current) routeDiffOpts st
      hget hne

/-- The route of `che` as the platform keeps it, its wildcard policy set to
`None` by the platform: the next sync of the desired route changes
nothing. -/
theorem diff_masking_witness :
    admittedRoute.Spec.WildcardPolicy ≠
        (getRouteSpec kubernetesExternals (cheResource SingleHost "")).Spec.WildcardPolicy ∧
      Syncer.Sync (cheResource SingleHost "")
          (.route (getRouteSpec kubernetesExternals (cheResource SingleHost ""))) routeDiffOpts
          { objects := [.route admittedRoute], writes := [] } =
        ((false, none), { objects := [.route admittedRoute], writes := [] }) :=
  ⟨by decide,
    (diff_masking (cheResource SingleHost "") { objects := [.route admittedRoute], writes := [] }
      admittedRoute (getRouteSpec kubernetesExternals (cheResource SingleHost ""))
      (getIngressSpec kubernetesExternals (cheResource SingleHost ""))
      (getIngressSpec kubernetesExternals (cheResource SingleHost ""))).2.2.1 rfl rfl⟩

/-! ## The concrete scenario -/

/-- C6, as stated, fails: the second `Reconcile` stores the phase
`Established` through a status write, so it does write to the backing
store. -/
theorem scenario_second_reconcile_writes :
    (scenarioSecond false).state.phase? scenarioKey = some GatewayPhaseEstablished ∧
      Store.writesSince (scenarioFirst false).state (scenarioSecond false).state =
        [⟨.UpdateStatus, .CheManager, scenarioKey⟩] ∧
      ¬ Store.writesSince (scenarioFirst false).state (scenarioSecond false).state = [] := by
  decide

/-- C6, amended: on either platform, the first `Reconcile` creates the six
bundle objects and the entry point and stores `Initializing`; the second
stores `Established` through one status write and issues no create, update
or delete; after the flip to `MultiHost` the third deletes the six bundle
objects and the entry point and stores `Inactive`. Each returns a requeue
and no error. -/
theorem scenario_reconciles (openShift : Bool) :
    ((scenarioFirst openShift).val = ({ Requeue := true }, none) ∧
      Store.writesSince (storeOf (cheResource SingleHost "")) (scenarioFirst openShift).state =
        (managedKinds openShift).map (fun k => ⟨.Create, k, scenarioKey⟩) ++
          [⟨.UpdateStatus, .CheManager, scenarioKey⟩] ∧
      (managedKinds openShift).all
        (fun k => (scenarioFirst openShift).state.has k scenarioKey) = true ∧
      (scenarioFirst openShift).state.phase? scenarioKey = some GatewayPhaseInitializing) ∧
    ((scenarioSecond openShift).val = ({ Requeue := true }, none) ∧
      Store.writesSince (scenarioFirst openShift).state (scenarioSecond openShift).state =
        [⟨.UpdateStatus, .CheManager, scenarioKey⟩] ∧
      (managedKinds openShift).all
        (fun k => (scenarioSecond openShift).state.has k scenarioKey) = true ∧
      (scenarioSecond openShift).state.phase? scenarioKey = some GatewayPhaseEstablished) ∧
    ((scenarioThird openShift).val = ({ Requeue := true }, none) ∧
      Store.writesSince (scenarioFlipped openShift) (scenarioThird openShift).state =
        (managedKinds openShift).map (fun k => ⟨.Delete, k, scenarioKey⟩) ++
          [⟨.UpdateStatus, .CheManager, scenarioKey⟩] ∧
      (managedKinds openShift).all
        (fun k => !(scenarioThird openShift).state.has k scenarioKey) = true ∧
      (scenarioThird openShift).state.phase? scenarioKey = some GatewayPhaseInactive) := by
  cases openShift <;> decide

end Manager
